import Mathlib

/-!
# Kinematic character controller of Bullet

A shallow embedding of
`src/BulletDynamics/Character/btKinematicCharacterController.cpp`.

* `btScalar` is embedded as the exact rationals: rounding of machine floats is
  not modelled, every statement below is about exact arithmetic.
* The square root and `SIMD_EPSILON` live in `LinearMath/btScalar.h`, which is
  not among the sources; they are parameters (`LinearMath`).
* A rational square root exists for few rationals.  Where a statement is about
  the square root of an arbitrary squared length, it is made of a second
  embedding of the function concerned, over a linearly ordered field
  (`Generic`), instantiated with the real numbers and the real square root.
* The collision world is an oracle: it answers the two queries the controller
  makes (contact manifolds of the ghost object, closest-hit convex sweep).  The
  answer may depend on the arguments of the query and on the number of queries
  answered before, so a world with a history is covered as well.
* The controller is the record of the fields of the C++ class, followed by
  three history fields that record the queries made (`sweepLog`,
  `dispatchLog`) and the values returned by `recoverFromPenetration`
  (`recoverLog`).  They are written, never read, by the embedded code, except
  that their length numbers the next query.
-/

namespace Bullet

/-- Modelled from the spec: the scalar type of `LinearMath/btScalar.h`, taken as
an exact rational number. -/
abbrev btScalar := ℚ

/-- Modelled from the spec: the parts of `LinearMath/btScalar.h` the controller
uses, the square root `btSqrt` and the constant `SIMD_EPSILON`.  Both are
parameters of the embedding. -/
structure LinearMath where
  btSqrt : btScalar → btScalar
  SIMD_EPSILON : btScalar

/-! ## btVector3 -/

/-- Modelled from the spec: `btVector3` of `LinearMath/btVector3.h`, a vector of
three scalars. -/
@[ext]
structure btVector3 where
  x : btScalar
  y : btScalar
  z : btScalar
deriving DecidableEq

namespace btVector3

/-- Modelled from the spec: `operator+` of `btVector3`, componentwise. -/
def add (a b : btVector3) : btVector3 := ⟨a.x + b.x, a.y + b.y, a.z + b.z⟩

/-- Modelled from the spec: `operator-` of `btVector3`, componentwise. -/
def sub (a b : btVector3) : btVector3 := ⟨a.x - b.x, a.y - b.y, a.z - b.z⟩

/-- Modelled from the spec: `operator*(btVector3, btScalar)`, scaling. -/
def scale (a : btVector3) (s : btScalar) : btVector3 := ⟨a.x * s, a.y * s, a.z * s⟩

instance : Add btVector3 := ⟨add⟩
instance : Sub btVector3 := ⟨sub⟩
instance : HMul btVector3 btScalar btVector3 := ⟨scale⟩
/-- Modelled from the spec: `operator*(btScalar, btVector3)` is `v * s`. -/
instance : HMul btScalar btVector3 btVector3 := ⟨fun s v => scale v s⟩

/-- Modelled from the spec: `btVector3::dot`. -/
def dot (a b : btVector3) : btScalar := a.x * b.x + a.y * b.y + a.z * b.z

/-- Modelled from the spec: `btVector3::length2`, the squared length. -/
def length2 (a : btVector3) : btScalar := a.dot a

/-- Modelled from the spec: `btVector3::length`, `btSqrt(length2())`. -/
def length (lm : LinearMath) (a : btVector3) : btScalar := lm.btSqrt a.length2

/-- Modelled from the spec: `operator/(btVector3, btScalar)`, which multiplies
by `1 / s`. -/
def div (a : btVector3) (s : btScalar) : btVector3 := a * ((1 : btScalar) / s)

/-- Modelled from the spec: `btVector3::normalize`, `*this /= length()`. -/
def normalize (lm : LinearMath) (a : btVector3) : btVector3 := a.div (a.length lm)

/-- Modelled from the spec: `btVector3::normalized`, `*this / length()`. -/
def normalized (lm : LinearMath) (a : btVector3) : btVector3 := a.div (a.length lm)

/-- Modelled from the spec: `btVector3::setInterpolate3(v0, v1, rt)`, the linear
interpolation `(1 - rt) * v0 + rt * v1`, componentwise. -/
def setInterpolate3 (v0 v1 : btVector3) (rt : btScalar) : btVector3 :=
  let s := (1 : btScalar) - rt
  ⟨s * v0.x + rt * v1.x, s * v0.y + rt * v1.y, s * v0.z + rt * v1.z⟩

end btVector3

/-! ## btTransform -/

/-- Modelled from the spec: `btMatrix3x3`, the orientation part of a transform,
as its three rows. -/
structure btMatrix3x3 where
  row0 : btVector3
  row1 : btVector3
  row2 : btVector3
deriving DecidableEq

/-- Modelled from the spec: `btMatrix3x3::getIdentity`. -/
def btMatrix3x3.getIdentity : btMatrix3x3 := ⟨⟨1, 0, 0⟩, ⟨0, 1, 0⟩, ⟨0, 0, 1⟩⟩

/-- Modelled from the spec: `btTransform`, an orientation and an origin. -/
structure btTransform where
  m_basis : btMatrix3x3
  m_origin : btVector3
deriving DecidableEq

namespace btTransform

/-- Modelled from the spec: the transform after `setIdentity()`. -/
def getIdentity : btTransform := ⟨btMatrix3x3.getIdentity, ⟨0, 0, 0⟩⟩

/-- Modelled from the spec: `btTransform::setOrigin`, only the origin is
replaced. -/
def setOrigin (t : btTransform) (origin : btVector3) : btTransform :=
  { t with m_origin := origin }

/-- Modelled from the spec: `btTransform::getOrigin`. -/
def getOrigin (t : btTransform) : btVector3 := t.m_origin

end btTransform

/-! ## Contact manifolds and sweep results -/

/-- Modelled from the spec: a contact point, with its world normal on B and its
signed distance (negative when the bodies overlap). -/
structure btManifoldPoint where
  m_normalWorldOnB : btVector3
  m_distance1 : btScalar
deriving DecidableEq

/-- Modelled from the spec: `btManifoldPoint::getDistance`. -/
def btManifoldPoint.getDistance (pt : btManifoldPoint) : btScalar := pt.m_distance1

/-- Modelled from the spec: a persistent manifold, the two bodies (by address)
and the contact points `0 .. getNumContacts() - 1` in order. -/
structure btPersistentManifold where
  m_body0 : Nat
  m_body1 : Nat
  m_pointCache : List btManifoldPoint
deriving DecidableEq

/-- Modelled from the spec: `btPersistentManifold::getBody0`. -/
def btPersistentManifold.getBody0 (m : btPersistentManifold) : Nat := m.m_body0

/-- Modelled from the spec: a collision algorithm, as the manifolds that
`getAllContactManifolds` appends to the array it is given. -/
structure btCollisionAlgorithm where
  manifolds : List btPersistentManifold
deriving DecidableEq

/-- Modelled from the spec: `btCollisionAlgorithm::getAllContactManifolds`. -/
def btCollisionAlgorithm.getAllContactManifolds (alg : btCollisionAlgorithm)
    (manifoldArray : List btPersistentManifold) : List btPersistentManifold :=
  manifoldArray ++ alg.manifolds

/-- Modelled from the spec: an overlapping pair; `m_algorithm` may be null. -/
structure btBroadphasePair where
  m_algorithm : Option btCollisionAlgorithm
deriving DecidableEq

/-- The callback `btClosestNotMeConvexResultCallback` as a sweep leaves it: the
closest hit fraction, the hit normal and point, and the object hit (none when
there was no hit). -/
structure btClosestNotMeConvexResultCallback where
  m_closestHitFraction : btScalar
  m_hitNormalWorld : btVector3
  m_hitPointWorld : btVector3
  m_hitCollisionObject : Option Nat
deriving DecidableEq

/-- Modelled from the spec: `ClosestConvexResultCallback::hasHit`, the hit
object is not null. -/
def btClosestNotMeConvexResultCallback.hasHit
    (cb : btClosestNotMeConvexResultCallback) : Bool :=
  cb.m_hitCollisionObject.isSome

/-- Modelled from the spec: the collision world, as the answers it gives.
`dispatchAllCollisionPairs k t` is the overlapping pair array of the ghost
object, with refreshed manifolds, when the ghost object has world transform `t`
and `k` dispatches were made before.  `convexSweepTest k margin start finish`
is the callback populated by the sweep of the convex shape with collision
margin `margin` from `start` to `finish` when `k` sweeps were made before;
`ghostConvexSweepTest` is the same query made through the ghost object. -/
structure btCollisionWorld where
  dispatchAllCollisionPairs : Nat → btTransform → List btBroadphasePair
  convexSweepTest :
    Nat → btScalar → btTransform → btTransform → btClosestNotMeConvexResultCallback
  ghostConvexSweepTest :
    Nat → btScalar → btTransform → btTransform → btClosestNotMeConvexResultCallback

/-! ## The controller -/

/-- Modelled from the spec: the convex shape, of which the controller reads and
writes the collision margin only. -/
structure btConvexShape where
  m_collisionMargin : btScalar
deriving DecidableEq

/-- Modelled from the spec: `btConvexShape::getMargin`. -/
def btConvexShape.getMargin (shape : btConvexShape) : btScalar := shape.m_collisionMargin

/-- Modelled from the spec: `btConvexShape::setMargin`. -/
def btConvexShape.setMargin (_shape : btConvexShape) (margin : btScalar) : btConvexShape :=
  ⟨margin⟩

/-- Modelled from the spec: the ghost object, its address (the identity that
`getBody0() == m_ghostObject` compares) and its world transform. -/
structure btPairCachingGhostObject where
  address : Nat
  m_worldTransform : btTransform
deriving DecidableEq

/-- Modelled from the spec: `btCollisionObject::getWorldTransform`. -/
def btPairCachingGhostObject.getWorldTransform (g : btPairCachingGhostObject) : btTransform :=
  g.m_worldTransform

/-- Modelled from the spec: `btCollisionObject::setWorldTransform`. -/
def btPairCachingGhostObject.setWorldTransform (g : btPairCachingGhostObject)
    (t : btTransform) : btPairCachingGhostObject :=
  { g with m_worldTransform := t }

/-- One convex sweep as the world saw it: the collision margin of the shape at
the time of the query and the two transforms. -/
structure SweepQuery where
  margin : btScalar
  start : btTransform
  finish : btTransform
deriving DecidableEq

/-- The state of `btKinematicCharacterController`, with the objects it points
to (ghost object, convex shape) held by value, and the three history fields. -/
structure btKinematicCharacterController where
  m_ghostObject : btPairCachingGhostObject
  m_convexShape : btConvexShape
  m_fallSpeed : btScalar
  m_jumpSpeed : btScalar
  m_maxJumpHeight : btScalar
  m_turnAngle : btScalar
  m_stepHeight : btScalar
  m_addedMargin : btScalar
  m_walkDirection : btVector3
  m_currentPosition : btVector3
  m_currentStepOffset : btScalar
  m_targetPosition : btVector3
  m_touchingContact : Bool
  m_touchingNormal : btVector3
  m_useGhostObjectSweepTest : Bool
  sweepLog : List SweepQuery
  dispatchLog : List btTransform
  recoverLog : List Bool
deriving DecidableEq

namespace btKinematicCharacterController

/-- Lines 74-77. -/
def computeReflectionDirection (direction normal : btVector3) : btVector3 :=
  direction - ((2 : btScalar) * direction.dot normal) * normal

/-- Lines 82-86. -/
def parallelComponent (direction normal : btVector3) : btVector3 :=
  let magnitude := direction.dot normal
  normal * magnitude

/-- Lines 91-94. -/
def perpindicularComponent (direction normal : btVector3) : btVector3 :=
  direction - parallelComponent direction normal

/-- The callback that the sweep from `start` to `finish` populates in state
`self`: the `if (m_useGhostObjectSweepTest)` of lines 188-195, 285-291 and
360-366. -/
def sweepCallback (world : btCollisionWorld) (self : btKinematicCharacterController)
    (start finish : btTransform) : btClosestNotMeConvexResultCallback :=
  if self.m_useGhostObjectSweepTest then
    world.ghostConvexSweepTest self.sweepLog.length self.m_convexShape.getMargin start finish
  else
    world.convexSweepTest self.sweepLog.length self.m_convexShape.getMargin start finish

/-- The state after the sweep from `start` to `finish`: the query is recorded. -/
def sweepDone (self : btKinematicCharacterController) (start finish : btTransform) :
    btKinematicCharacterController :=
  { self with sweepLog := self.sweepLog ++ [⟨self.m_convexShape.getMargin, start, finish⟩] }

/-! ### recoverFromPenetration (lines 118-169) -/

/-- The variables that the scan of `recoverFromPenetration` updates: the locals
`penetration` and `maxPen`, and the controller. -/
structure RecoverScan where
  penetration : Bool
  maxPen : btScalar
  self : btKinematicCharacterController

/-- Lines 144-158, the body of the loop over the contact points of a manifold. -/
def recoverContact (directionSign : btScalar) (scan : RecoverScan) (pt : btManifoldPoint) :
    RecoverScan :=
  if pt.getDistance < 0 then
    let scan :=
      if pt.getDistance < scan.maxPen then
        { scan with
          maxPen := pt.getDistance
          self := { scan.self with m_touchingNormal := pt.m_normalWorldOnB * directionSign } }
      else scan
    { scan with
      self := { scan.self with
        m_currentPosition := scan.self.m_currentPosition +
          pt.m_normalWorldOnB * directionSign * pt.getDistance * ((1 : btScalar) / 5) }
      penetration := true }
  else scan

/-- Line 141, the sign convention of a manifold. -/
def directionSign (self : btKinematicCharacterController) (manifold : btPersistentManifold) :
    btScalar :=
  if manifold.getBody0 = self.m_ghostObject.address then -1 else 1

/-- Lines 140-159, the body of the loop over the manifolds of a pair. -/
def recoverManifold (scan : RecoverScan) (manifold : btPersistentManifold) : RecoverScan :=
  manifold.m_pointCache.foldl (recoverContact (directionSign scan.self manifold)) scan

/-- Lines 130-135, the manifold array of a pair: emptied, then filled by the
algorithm of the pair when there is one. -/
def manifoldArray (collisionPair : btBroadphasePair) : List btPersistentManifold :=
  match collisionPair.m_algorithm with
  | some algorithm => algorithm.getAllContactManifolds []
  | none => []

/-- Lines 130-162, the body of the loop over the overlapping pairs. -/
def recoverPair (scan : RecoverScan) (collisionPair : btBroadphasePair) : RecoverScan :=
  (manifoldArray collisionPair).foldl recoverManifold scan

/-- Lines 118-169.  Returns the value returned and the state left. -/
def recoverFromPenetration (world : btCollisionWorld) (self : btKinematicCharacterController) :
    Bool × btKinematicCharacterController :=
  let pairs :=
    world.dispatchAllCollisionPairs self.dispatchLog.length self.m_ghostObject.getWorldTransform
  let self := { self with
    dispatchLog := self.dispatchLog ++ [self.m_ghostObject.getWorldTransform] }
  let self := { self with
    m_currentPosition := self.m_ghostObject.getWorldTransform.getOrigin }
  let scan := pairs.foldl recoverPair ⟨false, 0, self⟩
  let self := scan.self
  let newTrans := self.m_ghostObject.getWorldTransform
  let newTrans := newTrans.setOrigin self.m_currentPosition
  let self := { self with m_ghostObject := self.m_ghostObject.setWorldTransform newTrans }
  (scan.penetration, { self with recoverLog := self.recoverLog ++ [scan.penetration] })

/-! ### stepUp (lines 171-206) -/

/-- Lines 171-206. -/
def stepUp (world : btCollisionWorld) (self : btKinematicCharacterController) :
    btKinematicCharacterController :=
  let self := { self with
    m_targetPosition := self.m_currentPosition + (⟨0, self.m_stepHeight, 0⟩ : btVector3) }
  let start := btTransform.getIdentity
  let finish := btTransform.getIdentity
  let start := start.setOrigin (self.m_currentPosition + (⟨0, 1 / 10, 0⟩ : btVector3))
  let finish := finish.setOrigin self.m_targetPosition
  let callback := sweepCallback world self start finish
  let self := sweepDone self start finish
  if callback.hasHit then
    { self with
      m_currentStepOffset := self.m_stepHeight * callback.m_closestHitFraction
      m_currentPosition := btVector3.setInterpolate3 self.m_currentPosition
        self.m_targetPosition callback.m_closestHitFraction }
  else
    { self with
      m_currentStepOffset := self.m_stepHeight
      m_currentPosition := self.m_targetPosition }

/-! ### updateTargetPositionBasedOnCollision (lines 208-242) -/

/-- Lines 208-242.  The branch of line 225 is guarded by the constant `0`. -/
def updateTargetPositionBasedOnCollision (lm : LinearMath)
    (self : btKinematicCharacterController) (hitNormal : btVector3)
    (tangentMag normalMag : btScalar) : btKinematicCharacterController :=
  let movementDirection := self.m_targetPosition - self.m_currentPosition
  let movementLength := movementDirection.length lm
  if movementLength > lm.SIMD_EPSILON then
    let movementDirection := movementDirection.normalize lm
    let reflectDir := computeReflectionDirection movementDirection hitNormal
    let reflectDir := reflectDir.normalize lm
    let parallelDir := parallelComponent reflectDir hitNormal
    let perpindicularDir := perpindicularComponent reflectDir hitNormal
    let self := { self with m_targetPosition := self.m_currentPosition }
    let self :=
      if (0 : Int) ≠ 0 then
        let parComponent := parallelDir * (tangentMag * movementLength)
        { self with m_targetPosition := self.m_targetPosition + parComponent }
      else self
    if normalMag ≠ 0 then
      let perpComponent := perpindicularDir * (normalMag * movementLength)
      { self with m_targetPosition := self.m_targetPosition + perpComponent }
    else self
  else self

/-- Modelled from the spec: the default arguments of
`updateTargetPositionBasedOnCollision` in `btKinematicCharacterController.h`,
tangent magnitude `0` and normal magnitude `1`. -/
def updateTargetPositionBasedOnCollisionDefault (lm : LinearMath)
    (self : btKinematicCharacterController) (hitNormal : btVector3) :
    btKinematicCharacterController :=
  updateTargetPositionBasedOnCollision lm self hitNormal 0 1

/-! ### stepForwardAndStrafe (lines 244-339) -/

/-- What one pass through the body of the loop of `stepForwardAndStrafe` leaves:
whether the loop goes on (false after a `break`), the local `fraction`, and the
controller. -/
structure StrafePass where
  goOn : Bool
  fraction : btScalar
  self : btKinematicCharacterController

/-- Lines 273-333, one pass through the body of the loop. -/
def strafeBody (lm : LinearMath) (world : btCollisionWorld) (originalDir : btVector3)
    (fraction : btScalar) (self : btKinematicCharacterController) : StrafePass :=
  let start := btTransform.getIdentity.setOrigin self.m_currentPosition
  let finish := btTransform.getIdentity.setOrigin self.m_targetPosition
  let margin := self.m_convexShape.getMargin
  let self := { self with
    m_convexShape := self.m_convexShape.setMargin (margin + self.m_addedMargin) }
  let callback := sweepCallback world self start finish
  let self := sweepDone self start finish
  let self := { self with m_convexShape := self.m_convexShape.setMargin margin }
  let fraction := fraction - callback.m_closestHitFraction
  if callback.hasHit then
    let hitDistance := (callback.m_hitPointWorld - self.m_currentPosition).length lm
    let self :=
      if hitDistance > self.m_addedMargin then
        { self with
          m_currentPosition := btVector3.setInterpolate3 self.m_currentPosition
            self.m_targetPosition callback.m_closestHitFraction }
      else self
    let self := updateTargetPositionBasedOnCollisionDefault lm self callback.m_hitNormalWorld
    let currentDir := self.m_targetPosition - self.m_currentPosition
    let distance2 := currentDir.length2
    if distance2 > lm.SIMD_EPSILON then
      let currentDir := currentDir.normalize lm
      if currentDir.dot originalDir ≤ 0 then ⟨false, fraction, self⟩
      else ⟨true, fraction, self⟩
    else ⟨false, fraction, self⟩
  else
    ⟨true, fraction, { self with m_currentPosition := self.m_targetPosition }⟩

/-- Lines 271-338, the loop `while (fraction > 0.01 && maxIter-- > 0)`; `maxIter`
and `fraction` are the locals of that name. -/
def strafeLoop (lm : LinearMath) (world : btCollisionWorld) (originalDir : btVector3) :
    Nat → btScalar → btKinematicCharacterController → btKinematicCharacterController
  | 0, _, self => self
  | maxIter + 1, fraction, self =>
    if fraction > 1 / 100 then
      let pass := strafeBody lm world originalDir fraction self
      if pass.goOn then strafeLoop lm world originalDir maxIter pass.fraction pass.self
      else pass.self
    else self

/-- Lines 247-251, the direction of the walk move. -/
def originalDir (lm : LinearMath) (walkMove : btVector3) : btVector3 :=
  let originalDir := walkMove.normalized lm
  if walkMove.length lm < lm.SIMD_EPSILON then ⟨0, 0, 0⟩ else originalDir

/-- Lines 244-339. -/
def stepForwardAndStrafe (lm : LinearMath) (world : btCollisionWorld)
    (self : btKinematicCharacterController) (walkMove : btVector3) :
    btKinematicCharacterController :=
  let originalDir := originalDir lm walkMove
  let self := { self with m_targetPosition := self.m_currentPosition + walkMove }
  let fraction : btScalar := 1
  let self :=
    if self.m_touchingContact then
      if originalDir.dot self.m_touchingNormal > 0 then
        updateTargetPositionBasedOnCollisionDefault lm self self.m_touchingNormal
      else self
    else self
  let maxIter := 10
  strafeLoop lm world originalDir maxIter fraction self

/-! ### stepDown (lines 341-377) -/

/-- Lines 341-377. -/
def stepDown (world : btCollisionWorld) (self : btKinematicCharacterController)
    (_dt : btScalar) : btKinematicCharacterController :=
  let step_drop : btVector3 := ⟨0, self.m_currentStepOffset, 0⟩
  let gravity_drop : btVector3 := ⟨0, self.m_stepHeight, 0⟩
  let self := { self with m_targetPosition := self.m_targetPosition - (step_drop + gravity_drop) }
  let start := btTransform.getIdentity.setOrigin self.m_currentPosition
  let finish := btTransform.getIdentity.setOrigin self.m_targetPosition
  let callback := sweepCallback world self start finish
  let self := sweepDone self start finish
  if callback.hasHit then
    { self with
      m_currentPosition := btVector3.setInterpolate3 self.m_currentPosition
        self.m_targetPosition callback.m_closestHitFraction }
  else
    { self with m_currentPosition := self.m_targetPosition }

/-! ### warp, preStep, playerStep (lines 383-429) -/

/-- Lines 383-389. -/
def warp (self : btKinematicCharacterController) (origin : btVector3) :
    btKinematicCharacterController :=
  let xform := btTransform.getIdentity
  let xform := xform.setOrigin origin
  { self with m_ghostObject := self.m_ghostObject.setWorldTransform xform }

/-- Lines 397-406, the loop of `preStep`; `numPenetrationLoops` is the local of
that name. -/
def preStepLoop (world : btCollisionWorld) (numPenetrationLoops : Nat)
    (self : btKinematicCharacterController) : btKinematicCharacterController :=
  let r := recoverFromPenetration world self
  if r.1 then
    let numPenetrationLoops := numPenetrationLoops + 1
    let self := { r.2 with m_touchingContact := true }
    if 4 < numPenetrationLoops then self
    else preStepLoop world numPenetrationLoops self
  else r.2
termination_by 5 - numPenetrationLoops
decreasing_by omega

/-- Lines 392-413. -/
def preStep (world : btCollisionWorld) (self : btKinematicCharacterController) :
    btKinematicCharacterController :=
  let numPenetrationLoops := 0
  let self := { self with m_touchingContact := false }
  let self := preStepLoop world numPenetrationLoops self
  let self := { self with
    m_currentPosition := self.m_ghostObject.getWorldTransform.getOrigin }
  { self with m_targetPosition := self.m_currentPosition }

/-- Lines 415-429. -/
def playerStep (lm : LinearMath) (world : btCollisionWorld)
    (self : btKinematicCharacterController) (dt : btScalar) :
    btKinematicCharacterController :=
  let xform := self.m_ghostObject.getWorldTransform
  let self := stepUp world self
  let self := stepForwardAndStrafe lm world self self.m_walkDirection
  let self := stepDown world self dt
  let xform := xform.setOrigin self.m_currentPosition
  { self with m_ghostObject := self.m_ghostObject.setWorldTransform xform }

end btKinematicCharacterController

/-! ## Specification-side definitions and concrete data -/

/-- The sign of a manifold in the words of the specification: `-1` when the
proxy (the object at `address`) is body 0 of the manifold, `+1` otherwise. -/
def manifoldSign (address : Nat) (manifold : btPersistentManifold) : btScalar :=
  if manifold.getBody0 = address then -1 else 1

/-- Every contact point of every manifold of the overlapping pairs `pairs`, in
the order of the scan, each with the sign of its manifold for the proxy at
`address`. -/
def contactPoints (address : Nat) (pairs : List btBroadphasePair) :
    List (btScalar × btManifoldPoint) :=
  pairs.flatMap fun collisionPair =>
    (btKinematicCharacterController.manifoldArray collisionPair).flatMap fun manifold =>
      manifold.m_pointCache.map fun pt => (manifoldSign address manifold, pt)

/-- The corrective displacement in the words of the specification: the sum, over
the contact points with negative distance, of `normal × sign × distance × 0.2`. -/
def correctionSum : List (btScalar × btManifoldPoint) → btVector3
  | [] => ⟨0, 0, 0⟩
  | p :: ps =>
    if p.2.getDistance < 0 then
      p.2.m_normalWorldOnB * p.1 * p.2.getDistance * ((1 : btScalar) / 5) + correctionSum ps
    else correctionSum ps

/-- The callback populated by the sweep of one pass of the loop of
`stepForwardAndStrafe` entered in state `self` (lines 273-291): the sweep is
made with the enlarged margin, from `m_currentPosition` to `m_targetPosition`. -/
def strafeCallback (world : btCollisionWorld) (self : btKinematicCharacterController) :
    btClosestNotMeConvexResultCallback :=
  btKinematicCharacterController.sweepCallback world
    { self with
      m_convexShape := self.m_convexShape.setMargin
        (self.m_convexShape.getMargin + self.m_addedMargin) }
    (btTransform.getIdentity.setOrigin self.m_currentPosition)
    (btTransform.getIdentity.setOrigin self.m_targetPosition)

/-- The position that one pass of the loop of `stepForwardAndStrafe` leaves in
`m_currentPosition` when its sweep populated `cb` (lines 298-312 and 332). -/
def strafePosition (lm : LinearMath) (self : btKinematicCharacterController)
    (cb : btClosestNotMeConvexResultCallback) : btVector3 :=
  if cb.hasHit then
    if (cb.m_hitPointWorld - self.m_currentPosition).length lm > self.m_addedMargin then
      btVector3.setInterpolate3 self.m_currentPosition self.m_targetPosition
        cb.m_closestHitFraction
    else self.m_currentPosition
  else self.m_targetPosition

/-- The callback populated by the sweep of `stepDown` entered in state `self`
(lines 346-366): from `m_currentPosition` to `m_targetPosition` lowered by
`m_currentStepOffset + m_stepHeight`. -/
def stepDownCallback (world : btCollisionWorld) (self : btKinematicCharacterController) :
    btClosestNotMeConvexResultCallback :=
  btKinematicCharacterController.sweepCallback world self
    (btTransform.getIdentity.setOrigin self.m_currentPosition)
    (btTransform.getIdentity.setOrigin (self.m_targetPosition -
      ((⟨0, self.m_currentStepOffset, 0⟩ : btVector3) + ⟨0, self.m_stepHeight, 0⟩)))

/-- The callback populated by the sweep of `stepUp` entered in state `self`
(lines 175-195): from `m_currentPosition + (0, 0.1, 0)` to
`m_currentPosition + (0, m_stepHeight, 0)`. -/
def stepUpCallback (world : btCollisionWorld) (self : btKinematicCharacterController) :
    btClosestNotMeConvexResultCallback :=
  btKinematicCharacterController.sweepCallback world self
    (btTransform.getIdentity.setOrigin
      (self.m_currentPosition + (⟨0, 1 / 10, 0⟩ : btVector3)))
    (btTransform.getIdentity.setOrigin
      (self.m_currentPosition + (⟨0, self.m_stepHeight, 0⟩ : btVector3)))

/-- The scan of `recoverFromPenetration` over a flat list of contact points,
each with the sign of its manifold. -/
def scanContacts (pts : List (btScalar × btManifoldPoint))
    (scan : btKinematicCharacterController.RecoverScan) :
    btKinematicCharacterController.RecoverScan :=
  pts.foldl (fun sc p => btKinematicCharacterController.recoverContact p.1 sc p.2) scan

/-- The contact points that `recoverFromPenetration` scans when called in state
`self`: those of the manifolds that the dispatch of the call refreshes. -/
def recoverContacts (world : btCollisionWorld) (self : btKinematicCharacterController) :
    List (btScalar × btManifoldPoint) :=
  contactPoints self.m_ghostObject.address
    (world.dispatchAllCollisionPairs self.dispatchLog.length
      self.m_ghostObject.getWorldTransform)

/-- The variables of the scan of `recoverFromPenetration` called in state `self`
when the scan starts (lines 121-127): the dispatch is recorded,
`m_currentPosition` is the origin of the ghost object, `penetration` is false
and `maxPen` is `0`. -/
def recoverStart (self : btKinematicCharacterController) :
    btKinematicCharacterController.RecoverScan :=
  ⟨false, 0,
    { self with
      dispatchLog := self.dispatchLog ++ [self.m_ghostObject.getWorldTransform]
      m_currentPosition := self.m_ghostObject.getWorldTransform.getOrigin }⟩

/-- The variables of the scan of `recoverFromPenetration` called in state `self`
when the scan is over. -/
def recoverEnd (world : btCollisionWorld) (self : btKinematicCharacterController) :
    btKinematicCharacterController.RecoverScan :=
  scanContacts (recoverContacts world self) (recoverStart self)

/-- A square root on the rationals that is exact on squares: the integer square
roots of numerator and denominator. -/
def ratSqrt (q : ℚ) : ℚ := (Nat.sqrt q.num.toNat : ℚ) / (Nat.sqrt q.den : ℚ)

/-- The instance of `LinearMath` used in the concrete examples: `ratSqrt`, and
for `SIMD_EPSILON` the single precision machine epsilon `2⁻²³`. -/
def exactMath : LinearMath := ⟨ratSqrt, 1 / 8388608⟩

/-- A controller standing at the origin: step height `0.35`, added margin `0.02`
(line 98), shape margin `0.04`, ghost object at address `1` with the identity
transform, nothing recorded yet. -/
def restState : btKinematicCharacterController :=
  { m_ghostObject := ⟨1, btTransform.getIdentity⟩
    m_convexShape := ⟨1 / 25⟩
    m_fallSpeed := 0
    m_jumpSpeed := 0
    m_maxJumpHeight := 0
    m_turnAngle := 0
    m_stepHeight := 7 / 20
    m_addedMargin := 1 / 50
    m_walkDirection := ⟨1, 0, 0⟩
    m_currentPosition := ⟨0, 0, 0⟩
    m_currentStepOffset := 0
    m_targetPosition := ⟨0, 0, 0⟩
    m_touchingContact := false
    m_touchingNormal := ⟨0, 0, 0⟩
    m_useGhostObjectSweepTest := true
    sweepLog := []
    dispatchLog := []
    recoverLog := [] }

/-- The callback of a sweep that hit nothing: fraction `1`, no object. -/
def noHit : btClosestNotMeConvexResultCallback := ⟨1, ⟨0, 0, 0⟩, ⟨0, 0, 0⟩, none⟩

/-- A world with nothing in it: no overlapping pair, no sweep ever hits. -/
def emptyWorld : btCollisionWorld :=
  { dispatchAllCollisionPairs := fun _ _ => []
    convexSweepTest := fun _ _ _ _ => noHit
    ghostConvexSweepTest := fun _ _ _ _ => noHit }

/-- The answers of a world with a slope ahead: the first sweep hits the slope of
unit normal `(-3/5, 4/5, 0)` at fraction `0.99`, at the point `(1, 0, 0)`; no
later sweep hits anything. -/
def slopeAnswer (k : Nat) : btClosestNotMeConvexResultCallback :=
  if k = 0 then ⟨99 / 100, ⟨-3 / 5, 4 / 5, 0⟩, ⟨1, 0, 0⟩, some 2⟩ else noHit

/-- A world with a slope ahead, see `slopeAnswer`; no overlapping pair. -/
def slopeWorld : btCollisionWorld :=
  { dispatchAllCollisionPairs := fun _ _ => []
    convexSweepTest := fun k _ _ _ => slopeAnswer k
    ghostConvexSweepTest := fun k _ _ _ => slopeAnswer k }

/-- The answer of a world with a wall ahead: every sweep hits the wall of unit
normal `(-1, 0, 0)` at fraction `1/2`, at the point `(1, 0, 0)`. -/
def wallAnswer : btClosestNotMeConvexResultCallback :=
  ⟨1 / 2, ⟨-1, 0, 0⟩, ⟨1, 0, 0⟩, some 2⟩

/-- A world with a wall ahead, see `wallAnswer`; no overlapping pair. -/
def wallWorld : btCollisionWorld :=
  { dispatchAllCollisionPairs := fun _ _ => []
    convexSweepTest := fun _ _ _ _ => wallAnswer
    ghostConvexSweepTest := fun _ _ _ _ => wallAnswer }

/-- The signed distance of the proxy to a floor at height `-0.1` below the
origin, as a function of the origin of the proxy: negative (overlap) at the
origin, increasing by the upward displacement. -/
def floorDistance (origin : btVector3) : btScalar := -1 / 10 + origin.y

/-- A world with a floor that the proxy at address `1` overlaps: one overlapping
pair with one manifold, the proxy as body 0, and one contact point of normal
`(0, 1, 0)` at distance `floorDistance` of the origin of the proxy; no sweep
hits anything. -/
def floorWorld : btCollisionWorld :=
  { dispatchAllCollisionPairs := fun _ t =>
      [⟨some ⟨[⟨1, 2, [⟨⟨0, 1, 0⟩, floorDistance t.getOrigin⟩]⟩]⟩⟩]
    convexSweepTest := fun _ _ _ _ => noHit
    ghostConvexSweepTest := fun _ _ _ _ => noHit }

/-- The answers of a world where the proxy stands on flat ground with nothing
around: the first two sweeps (upward, horizontal) hit nothing, every later
sweep (downward) lands on the ground of normal `(0, 1, 0)` at fraction `1/2`. -/
def groundAnswer (k : Nat) : btClosestNotMeConvexResultCallback :=
  if k < 2 then noHit else ⟨1 / 2, ⟨0, 1, 0⟩, ⟨1, 0, 0⟩, some 2⟩

/-- A world of flat ground, see `groundAnswer`; no overlapping pair. -/
def groundWorld : btCollisionWorld :=
  { dispatchAllCollisionPairs := fun _ _ => []
    convexSweepTest := fun k _ _ _ => groundAnswer k
    ghostConvexSweepTest := fun k _ _ _ => groundAnswer k }

/-- A normalization that faults: `btVector3::normalize` when the length of the
vector exceeds `SIMD_EPSILON`, and no value when the division would be by a
zero or near-zero length. -/
def normalizeChecked (lm : LinearMath) (a : btVector3) : Option btVector3 :=
  if a.length lm > lm.SIMD_EPSILON then some (a.normalize lm) else none

/-- Lines 247-251 of `stepForwardAndStrafe` in the order of the source, with the
normalization of line 247 faulting as in `normalizeChecked`: `walkMove` is
normalized first, the length is compared with `SIMD_EPSILON` after. -/
def originalDirChecked (lm : LinearMath) (walkMove : btVector3) : Option btVector3 :=
  match normalizeChecked lm walkMove with
  | none => none
  | some originalDir =>
    some (if walkMove.length lm < lm.SIMD_EPSILON then ⟨0, 0, 0⟩ else originalDir)

/-! ## The retargeting over an ordered field

`updateTargetPositionBasedOnCollision` takes the square root of the squared
length of the movement, and over the rationals few movements have one.  To
state what the function does to every movement, the function and the vector
operations it uses are embedded a second time in this section, with a linearly
ordered field `K` in the place of the rationals and nothing else changed.  The
instance of interest is the real numbers with the real square root; over the
rationals the two embeddings agree (`updateTarget_toGeneric`). -/

namespace Generic

variable {K : Type} [LinearOrderedField K]

/-- Modelled from the spec: the square root `btSqrt` and the constant
`SIMD_EPSILON` of `LinearMath/btScalar.h`, over `K`. -/
structure LinearMath (K : Type) where
  btSqrt : K → K
  SIMD_EPSILON : K

/-- Modelled from the spec: `btVector3` of `LinearMath/btVector3.h`, over `K`. -/
@[ext]
structure btVector3 (K : Type) where
  x : K
  y : K
  z : K

namespace btVector3

/-- Modelled from the spec: `operator+` of `btVector3`, componentwise. -/
def add (a b : btVector3 K) : btVector3 K := ⟨a.x + b.x, a.y + b.y, a.z + b.z⟩

/-- Modelled from the spec: `operator-` of `btVector3`, componentwise. -/
def sub (a b : btVector3 K) : btVector3 K := ⟨a.x - b.x, a.y - b.y, a.z - b.z⟩

/-- Modelled from the spec: `operator*(btVector3, btScalar)`, scaling. -/
def scale (a : btVector3 K) (s : K) : btVector3 K := ⟨a.x * s, a.y * s, a.z * s⟩

instance : Add (btVector3 K) := ⟨add⟩
instance : Sub (btVector3 K) := ⟨sub⟩
instance : HMul (btVector3 K) K (btVector3 K) := ⟨scale⟩
/-- Modelled from the spec: `operator*(btScalar, btVector3)` is `v * s`. -/
instance : HMul K (btVector3 K) (btVector3 K) := ⟨fun s v => scale v s⟩

/-- Modelled from the spec: `btVector3::dot`. -/
def dot (a b : btVector3 K) : K := a.x * b.x + a.y * b.y + a.z * b.z

/-- Modelled from the spec: `btVector3::length2`, the squared length. -/
def length2 (a : btVector3 K) : K := a.dot a

/-- Modelled from the spec: `btVector3::length`, `btSqrt(length2())`. -/
def length (lm : LinearMath K) (a : btVector3 K) : K := lm.btSqrt a.length2

/-- Modelled from the spec: `operator/(btVector3, btScalar)`, which multiplies
by `1 / s`. -/
def div (a : btVector3 K) (s : K) : btVector3 K := a * ((1 : K) / s)

/-- Modelled from the spec: `btVector3::normalize`, `*this /= length()`. -/
def normalize (lm : LinearMath K) (a : btVector3 K) : btVector3 K := a.div (a.length lm)

end btVector3

/-- The two fields of the controller that
`updateTargetPositionBasedOnCollision` reads and writes. -/
structure btKinematicCharacterController (K : Type) where
  m_currentPosition : btVector3 K
  m_targetPosition : btVector3 K

namespace btKinematicCharacterController

/-- Lines 74-77. -/
def computeReflectionDirection (direction normal : btVector3 K) : btVector3 K :=
  direction - ((2 : K) * direction.dot normal) * normal

/-- Lines 82-86. -/
def parallelComponent (direction normal : btVector3 K) : btVector3 K :=
  let magnitude := direction.dot normal
  normal * magnitude

/-- Lines 91-94. -/
def perpindicularComponent (direction normal : btVector3 K) : btVector3 K :=
  direction - parallelComponent direction normal

/-- Lines 208-242.  The branch of line 225 is guarded by the constant `0`. -/
def updateTargetPositionBasedOnCollision (lm : LinearMath K)
    (self : btKinematicCharacterController K) (hitNormal : btVector3 K)
    (tangentMag normalMag : K) : btKinematicCharacterController K :=
  let movementDirection := self.m_targetPosition - self.m_currentPosition
  let movementLength := movementDirection.length lm
  if movementLength > lm.SIMD_EPSILON then
    let movementDirection := movementDirection.normalize lm
    let reflectDir := computeReflectionDirection movementDirection hitNormal
    let reflectDir := reflectDir.normalize lm
    let parallelDir := parallelComponent reflectDir hitNormal
    let perpindicularDir := perpindicularComponent reflectDir hitNormal
    let self := { self with m_targetPosition := self.m_currentPosition }
    let self :=
      if (0 : Int) ≠ 0 then
        let parComponent := parallelDir * (tangentMag * movementLength)
        { self with m_targetPosition := self.m_targetPosition + parComponent }
      else self
    if normalMag ≠ 0 then
      let perpComponent := perpindicularDir * (normalMag * movementLength)
      { self with m_targetPosition := self.m_targetPosition + perpComponent }
    else self
  else self

end btKinematicCharacterController

end Generic

/-- The square root and the constant `lm`, as an instance of the embedding over
a field. -/
def LinearMath.toGeneric (lm : LinearMath) : Generic.LinearMath ℚ :=
  ⟨lm.btSqrt, lm.SIMD_EPSILON⟩

/-- The vector `v`, as a vector of the embedding over a field. -/
def btVector3.toGeneric (v : btVector3) : Generic.btVector3 ℚ := ⟨v.x, v.y, v.z⟩

/-- The two positions of the controller `self`, as a state of the embedding over
a field. -/
def btKinematicCharacterController.toGeneric (self : btKinematicCharacterController) :
    Generic.btKinematicCharacterController ℚ :=
  ⟨self.m_currentPosition.toGeneric, self.m_targetPosition.toGeneric⟩

/-! ## Theorems -/

namespace btVector3

@[simp] theorem add_x (a b : btVector3) : (a + b).x = a.x + b.x := rfl
@[simp] theorem add_y (a b : btVector3) : (a + b).y = a.y + b.y := rfl
@[simp] theorem add_z (a b : btVector3) : (a + b).z = a.z + b.z := rfl
@[simp] theorem sub_x (a b : btVector3) : (a - b).x = a.x - b.x := rfl
@[simp] theorem sub_y (a b : btVector3) : (a - b).y = a.y - b.y := rfl
@[simp] theorem sub_z (a b : btVector3) : (a - b).z = a.z - b.z := rfl
@[simp] theorem scale_x (a : btVector3) (s : btScalar) : (a * s).x = a.x * s := rfl
@[simp] theorem scale_y (a : btVector3) (s : btScalar) : (a * s).y = a.y * s := rfl
@[simp] theorem scale_z (a : btVector3) (s : btScalar) : (a * s).z = a.z * s := rfl
@[simp] theorem lscale_x (s : btScalar) (a : btVector3) : (s * a).x = a.x * s := rfl
@[simp] theorem lscale_y (s : btScalar) (a : btVector3) : (s * a).y = a.y * s := rfl
@[simp] theorem lscale_z (s : btScalar) (a : btVector3) : (s * a).z = a.z * s := rfl

end btVector3

namespace btKinematicCharacterController

/-- C1: after `stepUp`, whatever the state and whatever callback the upward
sweep populates, the x and z components of `currentPosition` are unchanged; when
the sweep reports no hit the y component has risen by `stepHeight` and
`currentStepOffset = stepHeight`; when it reports a hit at fraction `f` the y
component has risen by `stepHeight * f` and `currentStepOffset = stepHeight * f`. -/
theorem stepUp_rise (world : btCollisionWorld) (self : btKinematicCharacterController) :
    let callback := stepUpCallback world self
    let after := stepUp world self
    after.m_currentPosition.x = self.m_currentPosition.x ∧
    after.m_currentPosition.z = self.m_currentPosition.z ∧
    after.m_currentPosition.y = self.m_currentPosition.y +
      (if callback.hasHit then self.m_stepHeight * callback.m_closestHitFraction
       else self.m_stepHeight) ∧
    after.m_currentStepOffset =
      (if callback.hasHit then self.m_stepHeight * callback.m_closestHitFraction
       else self.m_stepHeight) := by
  intro callback after
  have hcb : sweepCallback world
      { self with
        m_targetPosition := self.m_currentPosition + (⟨0, self.m_stepHeight, 0⟩ : btVector3) }
      (btTransform.getIdentity.setOrigin
        (self.m_currentPosition + (⟨0, 1 / 10, 0⟩ : btVector3)))
      (btTransform.getIdentity.setOrigin
        (self.m_currentPosition + (⟨0, self.m_stepHeight, 0⟩ : btVector3))) = callback := rfl
  simp only [after, stepUp, hcb]
  cases hhit : callback.hasHit
  · simp [sweepDone]
  · simp [sweepDone, btVector3.setInterpolate3]
    refine ⟨?_, ?_, ?_⟩ <;> ring

end btKinematicCharacterController

theorem ratSqrt_sq (a : ℚ) (h : 0 ≤ a) : ratSqrt (a * a) = a := by
  unfold ratSqrt
  have h0 : 0 ≤ a.num := Rat.num_nonneg.mpr h
  obtain ⟨n, hn⟩ := Int.eq_ofNat_of_zero_le h0
  have h1 : (a.num * a.num).toNat = n * n := by
    rw [hn]; exact_mod_cast Int.toNat_natCast (n * n)
  rw [Rat.mul_self_num, Rat.mul_self_den, Nat.sqrt_eq, h1, Nat.sqrt_eq]
  have h2 : ((n : ℕ) : ℚ) = ((a.num : ℤ) : ℚ) := by
    rw [hn]; simp
  rw [h2]; exact Rat.num_div_den a

theorem ratSqrt_of_sq (q a : ℚ) (h : 0 ≤ a) (hq : a * a = q) : ratSqrt q = a := by
  rw [← hq]; exact ratSqrt_sq a h

theorem exactMath_sqrt (a : btScalar) (h : 0 ≤ a) : exactMath.btSqrt (a * a) = a :=
  ratSqrt_sq a h

namespace btVector3

theorem dot_def (a b : btVector3) : a.dot b = a.x * b.x + a.y * b.y + a.z * b.z := rfl

theorem mk_add (a b c d e f : btScalar) :
    (⟨a, b, c⟩ : btVector3) + ⟨d, e, f⟩ = ⟨a + d, b + e, c + f⟩ := rfl

theorem mk_sub (a b c d e f : btScalar) :
    (⟨a, b, c⟩ : btVector3) - ⟨d, e, f⟩ = ⟨a - d, b - e, c - f⟩ := rfl

theorem mk_scale (a b c s : btScalar) :
    (⟨a, b, c⟩ : btVector3) * s = ⟨a * s, b * s, c * s⟩ := rfl

theorem mk_lscale (a b c s : btScalar) :
    s * (⟨a, b, c⟩ : btVector3) = ⟨a * s, b * s, c * s⟩ := rfl

theorem length2_eq_zero (a : btVector3) (h : a.length2 = 0) : a = ⟨0, 0, 0⟩ := by
  have hx : a.x = 0 := by
    unfold length2 dot at h; nlinarith [sq_nonneg a.x, sq_nonneg a.y, sq_nonneg a.z]
  have hy : a.y = 0 := by
    unfold length2 dot at h; nlinarith [sq_nonneg a.x, sq_nonneg a.y, sq_nonneg a.z]
  have hz : a.z = 0 := by
    unfold length2 dot at h; nlinarith [sq_nonneg a.x, sq_nonneg a.y, sq_nonneg a.z]
  ext <;> assumption

end btVector3

namespace btKinematicCharacterController

/-- The retargeting only writes `m_targetPosition`. -/
theorem updateTarget_frame (lm : LinearMath) (self : btKinematicCharacterController)
    (hitNormal : btVector3) (tangentMag normalMag : btScalar) :
    updateTargetPositionBasedOnCollision lm self hitNormal tangentMag normalMag =
      { self with m_targetPosition :=
          (updateTargetPositionBasedOnCollision lm self hitNormal tangentMag normalMag).m_targetPosition } := by
  unfold updateTargetPositionBasedOnCollision
  simp only []
  split
  · split <;> simp
  · rfl

/-- The vector computation of the retargeting: for a unit normal and a square
root exact at the squared length of `m` and at `1`, the perpendicular component
of the normalized reflection of the normalized `m`, scaled by the length of `m`,
is the perpendicular component of `m`. -/
theorem retarget_vec (lm : LinearMath) (m n : btVector3) (normalMag : btScalar)
    (hn : n.dot n = 1) (hlen : m.length lm * m.length lm = m.length2)
    (hone : lm.btSqrt 1 = 1) :
    perpindicularComponent
        ((computeReflectionDirection (m.normalize lm) n).normalize lm) n *
        (normalMag * m.length lm) =
      perpindicularComponent m n * normalMag := by
  by_cases h0 : m.length lm = 0
  · have hm : m = ⟨0, 0, 0⟩ := by
      apply btVector3.length2_eq_zero
      rw [← hlen, h0]; ring
    subst hm
    ext <;>
      simp [perpindicularComponent, parallelComponent, computeReflectionDirection,
        btVector3.normalize, btVector3.div, btVector3.dot_def]
  · have hn' : n.x * n.x + n.y * n.y + n.z * n.z = 1 := hn
    have hlen' : m.length lm * m.length lm = m.x * m.x + m.y * m.y + m.z * m.z := hlen
    have hd2 : (m.normalize lm).length2 = 1 := by
      simp only [btVector3.normalize, btVector3.div, btVector3.length2, btVector3.dot_def,
        btVector3.scale_x, btVector3.scale_y, btVector3.scale_z]
      field_simp
      linarith
    have hd2' : (m.normalize lm).x * (m.normalize lm).x + (m.normalize lm).y * (m.normalize lm).y
        + (m.normalize lm).z * (m.normalize lm).z = 1 := hd2
    have hr2 : (computeReflectionDirection (m.normalize lm) n).length2 = 1 := by
      simp only [computeReflectionDirection, btVector3.length2, btVector3.dot_def,
        btVector3.sub_x, btVector3.sub_y, btVector3.sub_z,
        btVector3.lscale_x, btVector3.lscale_y, btVector3.lscale_z]
      linear_combination hd2' + 4 * ((m.normalize lm).x * n.x + (m.normalize lm).y * n.y
        + (m.normalize lm).z * n.z) ^ 2 * hn'
    have hrn : (computeReflectionDirection (m.normalize lm) n).normalize lm
        = computeReflectionDirection (m.normalize lm) n := by
      simp only [btVector3.normalize, btVector3.length] at hr2 ⊢
      rw [hr2, hone]
      ext <;> simp [btVector3.div]
    rw [hrn]
    have hx : (m.normalize lm).x * m.length lm = m.x := by
      simp only [btVector3.normalize, btVector3.div, btVector3.scale_x]; field_simp
    have hy : (m.normalize lm).y * m.length lm = m.y := by
      simp only [btVector3.normalize, btVector3.div, btVector3.scale_y]; field_simp
    have hz : (m.normalize lm).z * m.length lm = m.z := by
      simp only [btVector3.normalize, btVector3.div, btVector3.scale_z]; field_simp
    generalize m.normalize lm = d at hx hy hz hd2 hd2' hr2 hrn
    generalize m.length lm = l at hx hy hz h0 hlen hlen'
    ext
    · simp only [perpindicularComponent, parallelComponent, computeReflectionDirection, btVector3.dot_def,
        btVector3.sub_x, btVector3.sub_y, btVector3.sub_z, btVector3.scale_x, btVector3.scale_y,
        btVector3.scale_z, btVector3.lscale_x, btVector3.lscale_y, btVector3.lscale_z]
      rw [← hx, ← hy, ← hz]
      linear_combination
        ((2 : ℚ) * n.x * normalMag * l * (d.x * n.x + d.y * n.y + d.z * n.z)) * hn'
    · simp only [perpindicularComponent, parallelComponent, computeReflectionDirection, btVector3.dot_def,
        btVector3.sub_x, btVector3.sub_y, btVector3.sub_z, btVector3.scale_x, btVector3.scale_y,
        btVector3.scale_z, btVector3.lscale_x, btVector3.lscale_y, btVector3.lscale_z]
      rw [← hx, ← hy, ← hz]
      linear_combination
        ((2 : ℚ) * n.y * normalMag * l * (d.x * n.x + d.y * n.y + d.z * n.z)) * hn'
    · simp only [perpindicularComponent, parallelComponent, computeReflectionDirection, btVector3.dot_def,
        btVector3.sub_x, btVector3.sub_y, btVector3.sub_z, btVector3.scale_x, btVector3.scale_y,
        btVector3.scale_z, btVector3.lscale_x, btVector3.lscale_y, btVector3.lscale_z]
      rw [← hx, ← hy, ← hz]
      linear_combination
        ((2 : ℚ) * n.z * normalMag * l * (d.x * n.x + d.y * n.y + d.z * n.z)) * hn'

/-- With a unit hit normal and a square root that is exact at the squared length
of the movement and at `1`, the retargeting projects the movement onto the
contact plane. -/
theorem updateTarget_project (lm : LinearMath) (self : btKinematicCharacterController)
    (n : btVector3) (tangentMag normalMag : btScalar)
    (hn : n.dot n = 1)
    (hlen : (self.m_targetPosition - self.m_currentPosition).length lm *
        (self.m_targetPosition - self.m_currentPosition).length lm =
        (self.m_targetPosition - self.m_currentPosition).length2)
    (hone : lm.btSqrt 1 = 1)
    (hbig : (self.m_targetPosition - self.m_currentPosition).length lm > lm.SIMD_EPSILON) :
    (updateTargetPositionBasedOnCollision lm self n tangentMag normalMag).m_targetPosition =
      self.m_currentPosition +
        perpindicularComponent (self.m_targetPosition - self.m_currentPosition) n * normalMag := by
  have hv := retarget_vec lm (self.m_targetPosition - self.m_currentPosition) n normalMag
    hn hlen hone
  unfold updateTargetPositionBasedOnCollision
  simp only [hbig, if_true]
  by_cases hnm : normalMag = 0
  · subst hnm
    ext <;> simp
  · simp only [ne_eq, hnm, not_false_eq_true, if_true, hv]
    simp


/-- One pass of the loop of `stepForwardAndStrafe` only writes the two positions
and appends its query to the log of sweeps. -/
theorem strafeBody_frame (lm : LinearMath) (world : btCollisionWorld) (od : btVector3)
    (fraction : btScalar) (self : btKinematicCharacterController) :
    (strafeBody lm world od fraction self).self =
      { self with
        m_currentPosition := (strafeBody lm world od fraction self).self.m_currentPosition
        m_targetPosition := (strafeBody lm world od fraction self).self.m_targetPosition
        sweepLog := self.sweepLog ++
          [⟨self.m_convexShape.getMargin + self.m_addedMargin,
            btTransform.getIdentity.setOrigin self.m_currentPosition,
            btTransform.getIdentity.setOrigin self.m_targetPosition⟩] } := by
  unfold strafeBody updateTargetPositionBasedOnCollisionDefault
  simp only []
  split_ifs <;> first | rfl | (rw [updateTarget_frame]; rfl)


/-- The position `stepDown` leaves, in terms of the callback of its sweep. -/
theorem stepDown_position (world : btCollisionWorld) (self : btKinematicCharacterController)
    (dt : btScalar) :
    (stepDown world self dt).m_currentPosition =
      if (stepDownCallback world self).hasHit then
        btVector3.setInterpolate3 self.m_currentPosition
          (self.m_targetPosition -
            ((⟨0, self.m_currentStepOffset, 0⟩ : btVector3) + ⟨0, self.m_stepHeight, 0⟩))
          (stepDownCallback world self).m_closestHitFraction
      else
        self.m_targetPosition -
          ((⟨0, self.m_currentStepOffset, 0⟩ : btVector3) + ⟨0, self.m_stepHeight, 0⟩) := by
  have hcb : sweepCallback world
      { self with m_targetPosition := self.m_targetPosition -
          ((⟨0, self.m_currentStepOffset, 0⟩ : btVector3) + ⟨0, self.m_stepHeight, 0⟩) }
      (btTransform.getIdentity.setOrigin self.m_currentPosition)
      (btTransform.getIdentity.setOrigin (self.m_targetPosition -
          ((⟨0, self.m_currentStepOffset, 0⟩ : btVector3) + ⟨0, self.m_stepHeight, 0⟩)))
      = stepDownCallback world self := rfl
  simp only [stepDown, hcb]
  split_ifs <;> rfl

/-- C2 (amended): after `stepDown`, whatever the state at entry and whatever
callback the downward sweep populates, the vertical coordinate of
`currentPosition` has decreased by `D` when the sweep reports no hit and by
`f * D` when it reports a hit at fraction `f`, where `D` is
`currentPosition.y - targetPosition.y + currentStepOffset + stepHeight` at entry
(which is `currentStepOffset + stepHeight` exactly when `targetPosition` and
`currentPosition` have the same vertical coordinate at entry). -/
theorem stepDown_drop (world : btCollisionWorld) (self : btKinematicCharacterController)
    (dt : btScalar) :
    let callback := stepDownCallback world self
    let drop := self.m_currentPosition.y - self.m_targetPosition.y +
      (self.m_currentStepOffset + self.m_stepHeight)
    (stepDown world self dt).m_currentPosition.y = self.m_currentPosition.y -
      (if callback.hasHit then callback.m_closestHitFraction * drop else drop) := by
  intro callback drop
  rw [stepDown_position]
  split_ifs with h
  · simp only [callback, drop, btVector3.setInterpolate3, btVector3.sub_y, btVector3.add_y]
    ring
  · simp only [callback, drop, btVector3.sub_y, btVector3.add_y]
    ring


/-- The target left by the retargeting only depends on the two positions. -/
theorem updateTarget_congr (lm : LinearMath) (s t : btKinematicCharacterController)
    (n : btVector3) (tangentMag normalMag : btScalar)
    (hc : s.m_currentPosition = t.m_currentPosition)
    (ht : s.m_targetPosition = t.m_targetPosition) :
    (updateTargetPositionBasedOnCollision lm s n tangentMag normalMag).m_targetPosition =
      (updateTargetPositionBasedOnCollision lm t n tangentMag normalMag).m_targetPosition := by
  unfold updateTargetPositionBasedOnCollision
  simp only [hc, ht]
  split_ifs <;> simp only [hc, ht]

theorem updateTarget_currentPosition (lm : LinearMath) (s : btKinematicCharacterController)
    (n : btVector3) (tangentMag normalMag : btScalar) :
    (updateTargetPositionBasedOnCollision lm s n tangentMag normalMag).m_currentPosition =
      s.m_currentPosition := by
  rw [updateTarget_frame]

theorem strafeBody_fraction (lm : LinearMath) (world : btCollisionWorld) (od : btVector3)
    (fraction : btScalar) (self : btKinematicCharacterController) :
    (strafeBody lm world od fraction self).fraction =
      fraction - (strafeCallback world self).m_closestHitFraction := by
  unfold strafeBody
  simp only []
  split_ifs <;> rfl

theorem strafeBody_position (lm : LinearMath) (world : btCollisionWorld) (od : btVector3)
    (fraction : btScalar) (self : btKinematicCharacterController) :
    (strafeBody lm world od fraction self).self.m_currentPosition =
      strafePosition lm self (strafeCallback world self) := by
  unfold strafeBody updateTargetPositionBasedOnCollisionDefault strafePosition
  simp only []
  have hcb : sweepCallback world
    { self with
      m_convexShape := self.m_convexShape.setMargin
        (self.m_convexShape.getMargin + self.m_addedMargin) }
    (btTransform.getIdentity.setOrigin self.m_currentPosition)
    (btTransform.getIdentity.setOrigin self.m_targetPosition) = strafeCallback world self := rfl
  simp only [hcb, sweepDone]
  split_ifs <;> first | rfl | (rw [updateTarget_currentPosition])

theorem strafeBody_target (lm : LinearMath) (world : btCollisionWorld) (od : btVector3)
    (fraction : btScalar) (self : btKinematicCharacterController) :
    (strafeBody lm world od fraction self).self.m_targetPosition =
      if (strafeCallback world self).hasHit then
        (updateTargetPositionBasedOnCollision lm
          { self with m_currentPosition := strafePosition lm self (strafeCallback world self) }
          (strafeCallback world self).m_hitNormalWorld 0 1).m_targetPosition
      else self.m_targetPosition := by
  unfold strafeBody updateTargetPositionBasedOnCollisionDefault strafePosition
  simp only []
  have hcb : sweepCallback world
    { self with
      m_convexShape := self.m_convexShape.setMargin
        (self.m_convexShape.getMargin + self.m_addedMargin) }
    (btTransform.getIdentity.setOrigin self.m_currentPosition)
    (btTransform.getIdentity.setOrigin self.m_targetPosition) = strafeCallback world self := rfl
  simp only [hcb, sweepDone]
  split_ifs <;> first | rfl | (apply updateTarget_congr <;> rfl)

theorem strafeBody_goOn (lm : LinearMath) (world : btCollisionWorld) (od : btVector3)
    (fraction : btScalar) (self : btKinematicCharacterController) :
    (strafeBody lm world od fraction self).goOn =
      if (strafeCallback world self).hasHit then
        if ((strafeBody lm world od fraction self).self.m_targetPosition -
            (strafeBody lm world od fraction self).self.m_currentPosition).length2
            > lm.SIMD_EPSILON then
          if (((strafeBody lm world od fraction self).self.m_targetPosition -
            (strafeBody lm world od fraction self).self.m_currentPosition).normalize lm).dot od
              ≤ 0 then false
          else true
        else false
      else true := by
  unfold strafeBody updateTargetPositionBasedOnCollisionDefault
  simp only []
  have hcb : sweepCallback world
    { self with
      m_convexShape := self.m_convexShape.setMargin
        (self.m_convexShape.getMargin + self.m_addedMargin) }
    (btTransform.getIdentity.setOrigin self.m_currentPosition)
    (btTransform.getIdentity.setOrigin self.m_targetPosition) = strafeCallback world self := rfl
  simp only [hcb, sweepDone]
  split_ifs <;> rfl


theorem ratSqrt_one : ratSqrt 1 = 1 := ratSqrt_of_sq 1 1 (by norm_num) (by norm_num)

theorem strafeLoop_succ (lm : LinearMath) (world : btCollisionWorld) (od : btVector3)
    (maxIter : Nat) (fraction : btScalar) (self : btKinematicCharacterController) :
    strafeLoop lm world od (maxIter + 1) fraction self =
      if fraction > 1 / 100 then
        if (strafeBody lm world od fraction self).goOn then
          strafeLoop lm world od maxIter (strafeBody lm world od fraction self).fraction
            (strafeBody lm world od fraction self).self
        else (strafeBody lm world od fraction self).self
      else self := rfl

theorem slope_callback :
    strafeCallback slopeWorld { restState with m_targetPosition := ⟨1, 0, 0⟩ } =
      ⟨99 / 100, ⟨-3 / 5, 4 / 5, 0⟩, ⟨1, 0, 0⟩, some 2⟩ := rfl

theorem slope_position :
    strafePosition exactMath { restState with m_targetPosition := ⟨1, 0, 0⟩ }
      ⟨99 / 100, ⟨-3 / 5, 4 / 5, 0⟩, ⟨1, 0, 0⟩, some 2⟩ = ⟨99 / 100, 0, 0⟩ := by
  have h1 : ratSqrt 1 = 1 := ratSqrt_one
  norm_num [strafePosition, btClosestNotMeConvexResultCallback.hasHit, restState,
    btVector3.mk_sub, btVector3.length, btVector3.length2, btVector3.dot_def, exactMath, h1,
    btVector3.setInterpolate3]

theorem slope_target :
    (updateTargetPositionBasedOnCollision exactMath
      { restState with m_targetPosition := ⟨1, 0, 0⟩, m_currentPosition := ⟨99 / 100, 0, 0⟩ }
      ⟨-3 / 5, 4 / 5, 0⟩ 0 1).m_targetPosition = ⟨2491 / 2500, 3 / 625, 0⟩ := by
  have h2 : ratSqrt (1 / 10000) = 1 / 100 := ratSqrt_of_sq _ _ (by norm_num) (by norm_num)
  have hl : ((⟨1, 0, 0⟩ : btVector3) - ⟨99 / 100, 0, 0⟩).length exactMath = 1 / 100 := by
    norm_num [btVector3.mk_sub, btVector3.length, btVector3.length2, btVector3.dot_def,
      exactMath, h2]
  rw [updateTarget_project]
  · norm_num [perpindicularComponent, parallelComponent, btVector3.mk_sub, btVector3.mk_add,
      btVector3.mk_scale, btVector3.dot_def]
  · norm_num [btVector3.dot_def]
  · rw [hl]; norm_num [btVector3.mk_sub, btVector3.length2, btVector3.dot_def]
  · exact ratSqrt_one
  · rw [hl]; norm_num [exactMath]

theorem slope_pass_position :
    (strafeBody exactMath slopeWorld ⟨1, 0, 0⟩ 1
      { restState with m_targetPosition := ⟨1, 0, 0⟩ }).self.m_currentPosition =
      ⟨99 / 100, 0, 0⟩ := by
  rw [strafeBody_position, slope_callback, slope_position]

theorem slope_pass_target :
    (strafeBody exactMath slopeWorld ⟨1, 0, 0⟩ 1
      { restState with m_targetPosition := ⟨1, 0, 0⟩ }).self.m_targetPosition =
      ⟨2491 / 2500, 3 / 625, 0⟩ := by
  rw [strafeBody_target, slope_callback, slope_position, if_pos (by rfl)]
  exact slope_target

theorem slope_pass_fraction :
    (strafeBody exactMath slopeWorld ⟨1, 0, 0⟩ 1
      { restState with m_targetPosition := ⟨1, 0, 0⟩ }).fraction = 1 / 100 := by
  rw [strafeBody_fraction, slope_callback]
  norm_num

theorem slope_pass_goOn :
    (strafeBody exactMath slopeWorld ⟨1, 0, 0⟩ 1
      { restState with m_targetPosition := ⟨1, 0, 0⟩ }).goOn = true := by
  have h3 : ratSqrt (1 / 15625) = 1 / 125 := ratSqrt_of_sq _ _ (by norm_num) (by norm_num)
  rw [strafeBody_goOn, slope_pass_position, slope_pass_target, slope_callback]
  norm_num [btClosestNotMeConvexResultCallback.hasHit, btVector3.mk_sub, btVector3.length2,
    btVector3.dot_def, btVector3.normalize, btVector3.div, btVector3.length, exactMath, h3,
    btVector3.mk_scale]

/-- The state in which the loop of `stepForwardAndStrafe` is entered when the
controller at rest walks by `(1, 0, 0)`. -/
theorem slope_entry :
    stepForwardAndStrafe exactMath slopeWorld restState ⟨1, 0, 0⟩ =
      (strafeBody exactMath slopeWorld ⟨1, 0, 0⟩ 1
        { restState with m_targetPosition := ⟨1, 0, 0⟩ }).self := by
  have h1 : ratSqrt 1 = 1 := ratSqrt_one
  have hdir : originalDir exactMath ⟨1, 0, 0⟩ = ⟨1, 0, 0⟩ := by
    norm_num [originalDir, btVector3.normalized, btVector3.length, btVector3.length2,
      btVector3.dot_def, exactMath, h1, btVector3.div, btVector3.mk_scale]
  unfold stepForwardAndStrafe
  simp only [hdir]
  have hs : (if ({ restState with
        m_targetPosition := restState.m_currentPosition + (⟨1, 0, 0⟩ : btVector3) } :
        btKinematicCharacterController).m_touchingContact = true then
      if ((⟨1, 0, 0⟩ : btVector3).dot ({ restState with
        m_targetPosition := restState.m_currentPosition + (⟨1, 0, 0⟩ : btVector3) } :
        btKinematicCharacterController).m_touchingNormal > 0) then
        updateTargetPositionBasedOnCollisionDefault exactMath { restState with
          m_targetPosition := restState.m_currentPosition + (⟨1, 0, 0⟩ : btVector3) }
          ({ restState with
            m_targetPosition := restState.m_currentPosition + (⟨1, 0, 0⟩ : btVector3) } :
            btKinematicCharacterController).m_touchingNormal
      else { restState with
        m_targetPosition := restState.m_currentPosition + (⟨1, 0, 0⟩ : btVector3) }
    else { restState with
      m_targetPosition := restState.m_currentPosition + (⟨1, 0, 0⟩ : btVector3) }) =
      { restState with m_targetPosition := ⟨1, 0, 0⟩ } := by
    rw [if_neg (by decide)]
    simp [restState, btVector3.mk_add]
  rw [hs, show (10 : Nat) = 9 + 1 from rfl, strafeLoop_succ, if_pos (by norm_num),
    slope_pass_goOn, if_pos rfl, show (9 : Nat) = 8 + 1 from rfl, strafeLoop_succ,
    slope_pass_fraction, if_neg (by norm_num)]


/-- The controller at rest that walks by `(1, 0, 0)` into the slope: it advances
to `(0.99, 0, 0)` and is left with a target up the slope. -/
theorem slope_state :
    stepForwardAndStrafe exactMath slopeWorld restState ⟨1, 0, 0⟩ =
      { restState with
        m_currentPosition := ⟨99 / 100, 0, 0⟩
        m_targetPosition := ⟨2491 / 2500, 3 / 625, 0⟩
        sweepLog := [⟨1 / 25 + 1 / 50, btTransform.getIdentity.setOrigin ⟨0, 0, 0⟩,
          btTransform.getIdentity.setOrigin ⟨1, 0, 0⟩⟩] } := by
  rw [slope_entry, strafeBody_frame, slope_pass_position, slope_pass_target]
  rfl

/-- C2, counterexample: the controller at rest (step height `0.35`, step offset
`0`) walks by `(1, 0, 0)` into a slope, which `stepForwardAndStrafe` leaves with
`currentPosition.y = 0` and `targetPosition.y = 3/625`; the downward sweep of
`stepDown` then hits nothing, and the vertical coordinate ends at
`3/625 - 0.35`, not at `0 - 0.35`. -/
theorem stepDown_drop_counterexample :
    (stepDownCallback slopeWorld
      (stepForwardAndStrafe exactMath slopeWorld restState ⟨1, 0, 0⟩)).hasHit = false ∧
    (stepDown slopeWorld
      (stepForwardAndStrafe exactMath slopeWorld restState ⟨1, 0, 0⟩) 0).m_currentPosition.y ≠
      (stepForwardAndStrafe exactMath slopeWorld restState ⟨1, 0, 0⟩).m_currentPosition.y -
        ((stepForwardAndStrafe exactMath slopeWorld restState ⟨1, 0, 0⟩).m_currentStepOffset +
          (stepForwardAndStrafe exactMath slopeWorld restState ⟨1, 0, 0⟩).m_stepHeight) := by
  have hcb : (stepDownCallback slopeWorld
      (stepForwardAndStrafe exactMath slopeWorld restState ⟨1, 0, 0⟩)).hasHit = false := by
    rw [slope_state]; rfl
  refine ⟨hcb, ?_⟩
  rw [stepDown_position, if_neg (by rw [hcb]; decide), slope_state]
  norm_num [restState]


/-- The sweeps of the loop of `stepForwardAndStrafe`: at most `maxIter` queries
are added to the log, each made with the margin at entry plus `m_addedMargin`,
and the shape and `m_addedMargin` are as at entry when the loop is left. -/
theorem strafeLoop_log (lm : LinearMath) (world : btCollisionWorld) (od : btVector3) :
    ∀ (maxIter : Nat) (fraction : btScalar) (self : btKinematicCharacterController),
      ∃ new : List SweepQuery,
        (strafeLoop lm world od maxIter fraction self).sweepLog = self.sweepLog ++ new ∧
        new.length ≤ maxIter ∧
        (∀ q ∈ new, q.margin = self.m_convexShape.getMargin + self.m_addedMargin) ∧
        (strafeLoop lm world od maxIter fraction self).m_convexShape = self.m_convexShape ∧
        (strafeLoop lm world od maxIter fraction self).m_addedMargin = self.m_addedMargin := by
  intro maxIter
  induction maxIter with
  | zero =>
    intro fraction self
    exact ⟨[], by simp [strafeLoop], by simp, by simp, rfl, rfl⟩
  | succ k ih =>
    intro fraction self
    have hf := strafeBody_frame lm world od fraction self
    have hlog := congrArg (fun s => s.sweepLog) hf
    have hshape := congrArg (fun s => s.m_convexShape) hf
    have hadded := congrArg (fun s => s.m_addedMargin) hf
    simp only [] at hlog hshape hadded
    rw [strafeLoop_succ]
    split_ifs with h1 h2
    · obtain ⟨new, hn1, hn2, hn3, hn4, hn5⟩ :=
        ih (strafeBody lm world od fraction self).fraction (strafeBody lm world od fraction self).self
      refine ⟨(⟨self.m_convexShape.getMargin + self.m_addedMargin,
          btTransform.getIdentity.setOrigin self.m_currentPosition,
          btTransform.getIdentity.setOrigin self.m_targetPosition⟩ : SweepQuery) :: new, ?_, ?_, ?_, ?_, ?_⟩
      · rw [hn1, hlog, List.append_assoc]; rfl
      · simp only [List.length_cons]; omega
      · intro q hq
        rcases List.mem_cons.mp hq with hq | hq
        · rw [hq]
        · rw [hn3 q hq, hshape, hadded]
      · rw [hn4, hshape]
      · rw [hn5, hadded]
    · refine ⟨[(⟨self.m_convexShape.getMargin + self.m_addedMargin,
          btTransform.getIdentity.setOrigin self.m_currentPosition,
          btTransform.getIdentity.setOrigin self.m_targetPosition⟩ : SweepQuery)], hlog, ?_, ?_, hshape, hadded⟩
      · simp
      · intro q hq
        rw [List.mem_singleton.mp hq]
    · exact ⟨[], by simp, by simp, by simp, rfl, rfl⟩

/-- The sweeps of `stepForwardAndStrafe`: at most ten, each made with the margin
at entry plus `m_addedMargin`; the shape is as at entry on return. -/
theorem stepForwardAndStrafe_log (lm : LinearMath) (world : btCollisionWorld)
    (self : btKinematicCharacterController) (walkMove : btVector3) :
    ∃ new : List SweepQuery,
      (stepForwardAndStrafe lm world self walkMove).sweepLog = self.sweepLog ++ new ∧
      new.length ≤ 10 ∧
      (∀ q ∈ new, q.margin = self.m_convexShape.getMargin + self.m_addedMargin) ∧
      (stepForwardAndStrafe lm world self walkMove).m_convexShape = self.m_convexShape := by
  unfold stepForwardAndStrafe
  simp only []
  split_ifs with h1 h2
  · obtain ⟨new, hn1, hn2, hn3, hn4, _⟩ := strafeLoop_log lm world (originalDir lm walkMove) 10 1
      (updateTargetPositionBasedOnCollisionDefault lm
        { self with m_targetPosition := self.m_currentPosition + walkMove } self.m_touchingNormal)
    have hf := updateTarget_frame lm
      { self with m_targetPosition := self.m_currentPosition + walkMove } self.m_touchingNormal 0 1
    unfold updateTargetPositionBasedOnCollisionDefault at hn1 hn3 hn4 ⊢
    refine ⟨new, ?_, hn2, ?_, ?_⟩
    · rw [hn1, hf]
    · intro q hq; rw [hn3 q hq, hf]
    · rw [hn4, hf]
  · obtain ⟨new, hn1, hn2, hn3, hn4, _⟩ := strafeLoop_log lm world (originalDir lm walkMove) 10 1
      { self with m_targetPosition := self.m_currentPosition + walkMove }
    exact ⟨new, hn1, hn2, hn3, hn4⟩
  · obtain ⟨new, hn1, hn2, hn3, hn4, _⟩ := strafeLoop_log lm world (originalDir lm walkMove) 10 1
      { self with m_targetPosition := self.m_currentPosition + walkMove }
    exact ⟨new, hn1, hn2, hn3, hn4⟩

/-- C4: `stepForwardAndStrafe` is a total function (it terminates), and whatever
the state at entry, the walk move and the answers of the collision world, it
makes at most 10 convex sweeps: the log of sweeps on return is the log at entry
followed by at most 10 queries. -/
theorem stepForwardAndStrafe_sweeps (lm : LinearMath) (world : btCollisionWorld)
    (self : btKinematicCharacterController) (walkMove : btVector3) :
    ∃ new : List SweepQuery,
      (stepForwardAndStrafe lm world self walkMove).sweepLog = self.sweepLog ++ new ∧
      new.length ≤ 10 := by
  obtain ⟨new, h1, h2, _, _⟩ := stepForwardAndStrafe_log lm world self walkMove
  exact ⟨new, h1, h2⟩

/-- C5: whatever the state at entry, the walk move and the answers of the
collision world, on return from `stepForwardAndStrafe` the collision margin of
the convex shape is its value at entry, and every sweep made during the call
was made with the margin at entry plus `addedMargin`. -/
theorem stepForwardAndStrafe_margin (lm : LinearMath) (world : btCollisionWorld)
    (self : btKinematicCharacterController) (walkMove : btVector3) :
    (stepForwardAndStrafe lm world self walkMove).m_convexShape.getMargin =
      self.m_convexShape.getMargin ∧
    ∃ new : List SweepQuery,
      (stepForwardAndStrafe lm world self walkMove).sweepLog = self.sweepLog ++ new ∧
      ∀ q ∈ new, q.margin = self.m_convexShape.getMargin + self.m_addedMargin := by
  obtain ⟨new, h1, _, h3, h4⟩ := stepForwardAndStrafe_log lm world self walkMove
  exact ⟨by rw [h4], new, h1, h3⟩


theorem setInterpolate3_add (a w : btVector3) (f : btScalar) :
    btVector3.setInterpolate3 a (a + w) f = a + w * f := by
  ext <;> simp [btVector3.setInterpolate3] <;> ring

/-- One pass of the loop of `stepForwardAndStrafe` against a wall of unit normal
`n`, with the target straight behind the wall (`target = position - L n`): the
pass ends in a `break`, and the position has advanced by `t` times the move for
`t = 0` or `t = f`. -/
theorem strafeBody_wall (lm : LinearMath) (world : btCollisionWorld) (od : btVector3)
    (fraction : btScalar) (self : btKinematicCharacterController) (n : btVector3)
    (L f : btScalar)
    (hsqrt : ∀ a : btScalar, 0 ≤ a → lm.btSqrt (a * a) = a)
    (heps : lm.SIMD_EPSILON ≤ 1)
    (hn : n.dot n = 1) (hL : 0 < L) (hf0 : 0 ≤ f) (hf1 : f ≤ 1)
    (htgt : self.m_targetPosition = self.m_currentPosition + (-L) * n)
    (hhit : (strafeCallback world self).hasHit = true)
    (hnormal : (strafeCallback world self).m_hitNormalWorld = n)
    (hfrac : (strafeCallback world self).m_closestHitFraction = f) :
    (strafeBody lm world od fraction self).goOn = false ∧
    ∃ t : btScalar, 0 ≤ t ∧ t ≤ f ∧
      (strafeBody lm world od fraction self).self.m_currentPosition =
        self.m_currentPosition + ((-L) * n) * t := by
  have hn' : n.x * n.x + n.y * n.y + n.z * n.z = 1 := hn
  -- the position left by the pass
  have hpos : ∃ t : btScalar, 0 ≤ t ∧ t ≤ f ∧
      strafePosition lm self (strafeCallback world self) =
        self.m_currentPosition + ((-L) * n) * t := by
    unfold strafePosition
    rw [if_pos hhit, hfrac, htgt]
    split_ifs
    · exact ⟨f, hf0, le_refl f, setInterpolate3_add _ _ _⟩
    · refine ⟨0, le_refl 0, hf0, ?_⟩
      ext <;> simp
  obtain ⟨t, ht0, htf, hP⟩ := hpos
  have hcur := strafeBody_position lm world od fraction self
  rw [hP] at hcur
  refine ⟨?_, t, ht0, htf, hcur⟩
  -- the movement left after the advance
  have ha : 0 ≤ L * (1 - t) := mul_nonneg hL.le (by linarith)
  have hm : ({ self with m_currentPosition := strafePosition lm self (strafeCallback world self) } :
      btKinematicCharacterController).m_targetPosition -
      ({ self with m_currentPosition := strafePosition lm self (strafeCallback world self) } :
      btKinematicCharacterController).m_currentPosition = n * (-(L * (1 - t))) := by
    simp only [hP, htgt]
    ext <;> simp <;> ring
  have hlen2 : (n * (-(L * (1 - t)))).length2 = (L * (1 - t)) * (L * (1 - t)) := by
    simp only [btVector3.length2, btVector3.dot_def, btVector3.scale_x, btVector3.scale_y,
      btVector3.scale_z]
    linear_combination (L * (1 - t)) * (L * (1 - t)) * hn'
  have hlen : (n * (-(L * (1 - t)))).length lm = L * (1 - t) := by
    rw [btVector3.length, hlen2, hsqrt _ ha]
  have htarget := strafeBody_target lm world od fraction self
  rw [if_pos hhit, hnormal] at htarget
  rw [strafeBody_goOn, if_pos hhit]
  by_cases hbig : L * (1 - t) > lm.SIMD_EPSILON
  · -- the retargeting projects the movement onto the wall: nothing is left
    rw [updateTarget_project lm _ n 0 1 hn (by rw [hm, hlen, hlen2])
      (by simpa using hsqrt 1 (by norm_num)) (by rw [hm, hlen]; exact hbig), hm] at htarget
    have hzero : (strafeBody lm world od fraction self).self.m_targetPosition -
        (strafeBody lm world od fraction self).self.m_currentPosition = ⟨0, 0, 0⟩ := by
      rw [htarget, hcur]
      simp only [hP]
      ext <;> simp [perpindicularComponent, parallelComponent, btVector3.dot_def]
      · linear_combination (n.x * L * (1 - t)) * hn'
      · linear_combination (n.y * L * (1 - t)) * hn'
      · linear_combination (n.z * L * (1 - t)) * hn'
    rw [hzero]
    split_ifs with h1 h2
    · rfl
    · exfalso; apply h2
      simp [btVector3.normalize, btVector3.div, btVector3.dot_def, btVector3.mk_scale]
    · rfl
  · -- the movement left is negligible: the target is kept, and is within epsilon
    have hkeep : (updateTargetPositionBasedOnCollision lm
        { self with m_currentPosition := strafePosition lm self (strafeCallback world self) }
        n 0 1).m_targetPosition = self.m_targetPosition := by
      unfold updateTargetPositionBasedOnCollision
      simp only []
      rw [hm, hlen, if_neg hbig]
    rw [hkeep] at htarget
    have hd : (strafeBody lm world od fraction self).self.m_targetPosition -
        (strafeBody lm world od fraction self).self.m_currentPosition =
        n * (-(L * (1 - t))) := by
      rw [htarget, hcur, ← hm]
      simp only [hP]
    rw [hd, hlen2]
    have hle : L * (1 - t) ≤ lm.SIMD_EPSILON := not_lt.mp hbig
    have hsmall : ¬ (L * (1 - t) * (L * (1 - t)) > lm.SIMD_EPSILON) := by
      apply not_lt.mpr
      nlinarith
    rw [if_neg hsmall]


/-- C3: `stepForwardAndStrafe` toward a single flat wall with movement purely
along its normal.  For a square root exact on squares and `SIMD_EPSILON ≤ 1`, a
unit normal `n`, `walkMove = -L n` with `L > 0`, `touchingContact` false, and a
first sweep that reports a hit with normal `n` at fraction `f` in `[0, 1]`: the
final `currentPosition` is `start + t walkMove` for some `0 ≤ t ≤ f`, and the
call makes at most 10 sweeps. -/
theorem stepForwardAndStrafe_wall (lm : LinearMath) (world : btCollisionWorld)
    (self : btKinematicCharacterController) (n : btVector3) (L f : btScalar)
    (hsqrt : ∀ a : btScalar, 0 ≤ a → lm.btSqrt (a * a) = a)
    (heps : lm.SIMD_EPSILON ≤ 1)
    (hn : n.dot n = 1) (hL : 0 < L) (hf0 : 0 ≤ f) (hf1 : f ≤ 1)
    (htouch : self.m_touchingContact = false)
    (hhit : (strafeCallback world
      { self with m_targetPosition := self.m_currentPosition + (-L) * n }).hasHit = true)
    (hnormal : (strafeCallback world
      { self with m_targetPosition := self.m_currentPosition + (-L) * n }).m_hitNormalWorld = n)
    (hfrac : (strafeCallback world
      { self with m_targetPosition := self.m_currentPosition + (-L) * n }).m_closestHitFraction
        = f) :
    ∃ t : btScalar, 0 ≤ t ∧ t ≤ f ∧
      (stepForwardAndStrafe lm world self ((-L) * n)).m_currentPosition =
        self.m_currentPosition + ((-L) * n) * t ∧
      ∃ new : List SweepQuery,
        (stepForwardAndStrafe lm world self ((-L) * n)).sweepLog = self.sweepLog ++ new ∧
        new.length ≤ 10 := by
  obtain ⟨new, hlog, hlen, _, _⟩ := stepForwardAndStrafe_log lm world self ((-L) * n)
  obtain ⟨hstop, t, ht0, htf, hpos⟩ := strafeBody_wall lm world (originalDir lm ((-L) * n)) 1
    { self with m_targetPosition := self.m_currentPosition + (-L) * n } n L f
    hsqrt heps hn hL hf0 hf1 rfl hhit hnormal hfrac
  refine ⟨t, ht0, htf, ?_, new, hlog, hlen⟩
  have hcall : stepForwardAndStrafe lm world self ((-L) * n) =
      (strafeBody lm world (originalDir lm ((-L) * n)) 1
        { self with m_targetPosition := self.m_currentPosition + (-L) * n }).self := by
    unfold stepForwardAndStrafe
    simp only []
    rw [if_neg (show ¬ (self.m_touchingContact = true) by rw [htouch]; decide),
      show (10 : Nat) = 9 + 1 from rfl, strafeLoop_succ,
      if_pos (by norm_num), hstop, if_neg (by decide)]
  rw [hcall, hpos]

/-- C3, witness: the controller at rest walks by `(1, 0, 0)` into the wall of
normal `(-1, 0, 0)` that every sweep hits at fraction `1/2`. -/
theorem stepForwardAndStrafe_wall_witness :
    ∃ t : btScalar, 0 ≤ t ∧ t ≤ 1 / 2 ∧
      (stepForwardAndStrafe exactMath wallWorld restState
        ((-1 : btScalar) * (⟨-1, 0, 0⟩ : btVector3))).m_currentPosition =
        restState.m_currentPosition + ((-1 : btScalar) * (⟨-1, 0, 0⟩ : btVector3)) * t ∧
      ∃ new : List SweepQuery,
        (stepForwardAndStrafe exactMath wallWorld restState
          ((-1 : btScalar) * (⟨-1, 0, 0⟩ : btVector3))).sweepLog = restState.sweepLog ++ new ∧
        new.length ≤ 10 :=
  stepForwardAndStrafe_wall exactMath wallWorld restState ⟨-1, 0, 0⟩ 1 (1 / 2)
    exactMath_sqrt (by norm_num [exactMath]) (by norm_num [btVector3.dot_def])
    (by norm_num) (by norm_num) (by norm_num) rfl rfl rfl rfl


/-- The scan only writes `m_currentPosition` and `m_touchingNormal`. -/
theorem recoverContact_frame (sign : btScalar) (scan : RecoverScan) (pt : btManifoldPoint) :
    (recoverContact sign scan pt).self =
      { scan.self with
        m_currentPosition := (recoverContact sign scan pt).self.m_currentPosition
        m_touchingNormal := (recoverContact sign scan pt).self.m_touchingNormal } := by
  unfold recoverContact
  simp only []
  split_ifs <;> rfl

theorem scanContacts_nil (scan : RecoverScan) : scanContacts [] scan = scan := rfl

theorem scanContacts_cons (p : btScalar × btManifoldPoint)
    (ps : List (btScalar × btManifoldPoint)) (scan : RecoverScan) :
    scanContacts (p :: ps) scan = scanContacts ps (recoverContact p.1 scan p.2) := rfl

theorem scanContacts_append (ps qs : List (btScalar × btManifoldPoint)) (scan : RecoverScan) :
    scanContacts (ps ++ qs) scan = scanContacts qs (scanContacts ps scan) := by
  unfold scanContacts
  rw [List.foldl_append]

theorem scanContacts_frame (ps : List (btScalar × btManifoldPoint)) :
    ∀ scan : RecoverScan,
      (scanContacts ps scan).self =
        { scan.self with
          m_currentPosition := (scanContacts ps scan).self.m_currentPosition
          m_touchingNormal := (scanContacts ps scan).self.m_touchingNormal } := by
  induction ps with
  | nil => intro scan; rfl
  | cons p ps ih =>
    intro scan
    rw [scanContacts_cons, ih, recoverContact_frame]

theorem scanContacts_address (ps : List (btScalar × btManifoldPoint)) (scan : RecoverScan) :
    (scanContacts ps scan).self.m_ghostObject.address = scan.self.m_ghostObject.address := by
  rw [scanContacts_frame]

/-- A loop whose body scans the contact points that an item expands to scans the
contact points of all the items. -/
theorem foldl_scan {α : Type} (expand : Nat → α → List (btScalar × btManifoldPoint))
    (g : RecoverScan → α → RecoverScan)
    (hg : ∀ scan a, g scan a = scanContacts (expand scan.self.m_ghostObject.address a) scan) :
    ∀ (l : List α) (scan : RecoverScan),
      l.foldl g scan =
        scanContacts (l.flatMap (expand scan.self.m_ghostObject.address)) scan := by
  intro l
  induction l with
  | nil => intro scan; rfl
  | cons a l ih =>
    intro scan
    rw [List.foldl_cons, ih, hg, List.flatMap_cons, scanContacts_append, scanContacts_address]

theorem recoverManifold_scan (scan : RecoverScan) (manifold : btPersistentManifold) :
    recoverManifold scan manifold =
      scanContacts (manifold.m_pointCache.map fun pt =>
        (manifoldSign scan.self.m_ghostObject.address manifold, pt)) scan := by
  unfold recoverManifold scanContacts
  rw [List.foldl_map]
  rfl

theorem recoverPair_scan (scan : RecoverScan) (collisionPair : btBroadphasePair) :
    recoverPair scan collisionPair =
      scanContacts ((manifoldArray collisionPair).flatMap fun manifold =>
        manifold.m_pointCache.map fun pt =>
          (manifoldSign scan.self.m_ghostObject.address manifold, pt)) scan := by
  unfold recoverPair
  exact foldl_scan (fun address manifold => manifold.m_pointCache.map fun pt =>
    (manifoldSign address manifold, pt)) recoverManifold recoverManifold_scan _ scan

theorem recoverPairs_scan (pairs : List btBroadphasePair) (scan : RecoverScan) :
    pairs.foldl recoverPair scan =
      scanContacts (contactPoints scan.self.m_ghostObject.address pairs) scan := by
  unfold contactPoints
  exact foldl_scan (fun address collisionPair =>
    (manifoldArray collisionPair).flatMap fun manifold =>
      manifold.m_pointCache.map fun pt => (manifoldSign address manifold, pt))
    recoverPair recoverPair_scan pairs scan

/-- The value and the state that `recoverFromPenetration` returns, in terms of
the scan of the contact points. -/
theorem recoverFromPenetration_scan (world : btCollisionWorld)
    (self : btKinematicCharacterController) :
    recoverFromPenetration world self =
      ((recoverEnd world self).penetration,
        { self with
          dispatchLog := self.dispatchLog ++ [self.m_ghostObject.getWorldTransform]
          m_currentPosition := (recoverEnd world self).self.m_currentPosition
          m_touchingNormal := (recoverEnd world self).self.m_touchingNormal
          m_ghostObject := self.m_ghostObject.setWorldTransform
            (self.m_ghostObject.getWorldTransform.setOrigin
              (recoverEnd world self).self.m_currentPosition)
          recoverLog := self.recoverLog ++ [(recoverEnd world self).penetration] }) := by
  unfold recoverFromPenetration
  simp only []
  rw [recoverPairs_scan]
  have h : scanContacts (contactPoints self.m_ghostObject.address
      (world.dispatchAllCollisionPairs self.dispatchLog.length
        self.m_ghostObject.getWorldTransform)) ⟨false, 0,
      { self with
        dispatchLog := self.dispatchLog ++ [self.m_ghostObject.getWorldTransform]
        m_currentPosition := self.m_ghostObject.getWorldTransform.getOrigin }⟩ =
      recoverEnd world self := rfl
  simp only [h]
  have hfr : (recoverEnd world self).self =
      { (recoverStart self).self with
        m_currentPosition := (recoverEnd world self).self.m_currentPosition
        m_touchingNormal := (recoverEnd world self).self.m_touchingNormal } :=
    scanContacts_frame _ _
  rw [hfr]
  rfl

theorem add_assoc_vec (a b c : btVector3) : a + (b + c) = a + b + c := by
  ext <;> simp <;> ring

theorem add_zero_vec (a : btVector3) : a + (⟨0, 0, 0⟩ : btVector3) = a := by
  ext <;> simp

theorem scanContacts_position (ps : List (btScalar × btManifoldPoint)) :
    ∀ scan : RecoverScan,
      (scanContacts ps scan).self.m_currentPosition =
        scan.self.m_currentPosition + correctionSum ps := by
  induction ps with
  | nil => intro scan; rw [scanContacts_nil, correctionSum, add_zero_vec]
  | cons p ps ih =>
    intro scan
    rw [scanContacts_cons, ih, correctionSum]
    unfold recoverContact
    simp only []
    split_ifs
    · rw [add_assoc_vec]
    · rw [add_assoc_vec]
    · rfl

theorem scanContacts_penetration (ps : List (btScalar × btManifoldPoint)) :
    ∀ scan : RecoverScan,
      ((scanContacts ps scan).penetration = true ↔
        scan.penetration = true ∨ ∃ p ∈ ps, p.2.getDistance < 0) := by
  induction ps with
  | nil => intro scan; simp [scanContacts_nil]
  | cons p ps ih =>
    intro scan
    rw [scanContacts_cons, ih]
    unfold recoverContact
    simp only []
    split_ifs with h1 h2
    · simp [h1]
    · simp [h1]
    · simp [h1]


theorem recoverContact_maxPen (sign : btScalar) (scan : RecoverScan) (pt : btManifoldPoint) :
    (recoverContact sign scan pt).maxPen =
      if pt.getDistance < 0 ∧ pt.getDistance < scan.maxPen then pt.getDistance
      else scan.maxPen := by
  unfold recoverContact
  simp only []
  split_ifs with h1 h2 h3 h3 h3 <;> first | rfl | (exfalso; tauto)

theorem recoverContact_normal (sign : btScalar) (scan : RecoverScan) (pt : btManifoldPoint) :
    (recoverContact sign scan pt).self.m_touchingNormal =
      if pt.getDistance < 0 ∧ pt.getDistance < scan.maxPen then pt.m_normalWorldOnB * sign
      else scan.self.m_touchingNormal := by
  unfold recoverContact
  simp only []
  split_ifs with h1 h2 h3 h3 h3 <;> first | rfl | (exfalso; tauto)

/-- The deepest point of a scan: either no point was below `maxPen`, and
`maxPen` and `m_touchingNormal` are kept, or they are those of a point of least
distance among the points with negative distance. -/
theorem scanContacts_deepest (ps : List (btScalar × btManifoldPoint)) :
    ∀ scan : RecoverScan,
      ((scanContacts ps scan).maxPen = scan.maxPen ∧
        (scanContacts ps scan).self.m_touchingNormal = scan.self.m_touchingNormal ∧
        ∀ q ∈ ps, q.2.getDistance < 0 → scan.maxPen ≤ q.2.getDistance) ∨
      (∃ p ∈ ps, p.2.getDistance < 0 ∧
        (scanContacts ps scan).maxPen = p.2.getDistance ∧
        (scanContacts ps scan).self.m_touchingNormal = p.2.m_normalWorldOnB * p.1 ∧
        p.2.getDistance < scan.maxPen ∧
        ∀ q ∈ ps, q.2.getDistance < 0 → p.2.getDistance ≤ q.2.getDistance) := by
  induction ps with
  | nil =>
    intro scan
    left
    exact ⟨rfl, rfl, by simp⟩
  | cons p ps ih =>
    intro scan
    rw [scanContacts_cons]
    have hmax := recoverContact_maxPen p.1 scan p.2
    have hnor := recoverContact_normal p.1 scan p.2
    by_cases hp : p.2.getDistance < 0 ∧ p.2.getDistance < scan.maxPen
    · rw [if_pos hp] at hmax hnor
      rcases ih (recoverContact p.1 scan p.2) with ⟨h1, h2, h3⟩ | ⟨p', hp', h1, h2, h3, h4, h5⟩
      · right
        refine ⟨p, List.mem_cons_self _ _, hp.1, by rw [h1, hmax], by rw [h2, hnor], hp.2, ?_⟩
        intro q hq hneg
        rcases List.mem_cons.mp hq with hq | hq
        · rw [hq]
        · have := h3 q hq hneg
          rw [hmax] at this
          exact this
      · right
        rw [hmax] at h4
        refine ⟨p', List.mem_cons_of_mem _ hp', h1, h2, h3, lt_trans h4 hp.2, ?_⟩
        intro q hq hneg
        rcases List.mem_cons.mp hq with hq | hq
        · rw [hq]; exact le_of_lt h4
        · exact h5 q hq hneg
    · rw [if_neg hp] at hmax hnor
      have hge : p.2.getDistance < 0 → scan.maxPen ≤ p.2.getDistance := by
        intro hneg
        by_contra hlt
        exact hp ⟨hneg, not_le.mp hlt⟩
      rcases ih (recoverContact p.1 scan p.2) with ⟨h1, h2, h3⟩ | ⟨p', hp', h1, h2, h3, h4, h5⟩
      · left
        refine ⟨by rw [h1, hmax], by rw [h2, hnor], ?_⟩
        intro q hq hneg
        rcases List.mem_cons.mp hq with hq | hq
        · rw [hq]; exact hge (by rw [← hq]; exact hneg)
        · have := h3 q hq hneg
          rw [hmax] at this
          exact this
      · right
        rw [hmax] at h4
        refine ⟨p', List.mem_cons_of_mem _ hp', h1, h2, h3, h4, ?_⟩
        intro q hq hneg
        rcases List.mem_cons.mp hq with hq | hq
        · rw [hq]
          exact le_trans (le_of_lt h4) (hge (by rw [← hq]; exact hneg))
        · exact h5 q hq hneg

/-- The position and the transform that `recoverFromPenetration` leaves: the
origin of the ghost object at entry plus the corrective displacement, with the
orientation kept. -/
theorem recover_position (world : btCollisionWorld)
    (self : btKinematicCharacterController) :
    (recoverFromPenetration world self).2.m_currentPosition =
      self.m_ghostObject.getWorldTransform.getOrigin +
        correctionSum (recoverContacts world self) ∧
    (recoverFromPenetration world self).2.m_ghostObject.getWorldTransform.getOrigin =
      self.m_ghostObject.getWorldTransform.getOrigin +
        correctionSum (recoverContacts world self) ∧
    (recoverFromPenetration world self).2.m_ghostObject.getWorldTransform.m_basis =
      self.m_ghostObject.getWorldTransform.m_basis := by
  rw [recoverFromPenetration_scan]
  have h := scanContacts_position (recoverContacts world self) (recoverStart self)
  exact ⟨h, h, rfl⟩

/-- The value that `recoverFromPenetration` returns: whether a scanned contact
point has negative distance. -/
theorem recover_returns (world : btCollisionWorld)
    (self : btKinematicCharacterController) :
    (recoverFromPenetration world self).1 = true ↔
      ∃ p ∈ recoverContacts world self, p.2.getDistance < 0 := by
  rw [recoverFromPenetration_scan]
  have h := scanContacts_penetration (recoverContacts world self) (recoverStart self)
  simpa [recoverStart, recoverEnd] using h

/-- C6: whatever the contact manifolds, after `recoverFromPenetration` both
`currentPosition` and the origin of the world transform of the proxy are the
origin of the proxy before the call plus the sum, over the contact points with
negative distance, of `normal × sign × distance × 0.2` (sign `-1` when the proxy
is body 0 of the manifold, `+1` otherwise), and the orientation of the proxy is
unchanged. -/
theorem recoverFromPenetration_position (world : btCollisionWorld)
    (self : btKinematicCharacterController) :
    (recoverFromPenetration world self).2.m_currentPosition =
      self.m_ghostObject.getWorldTransform.getOrigin +
        correctionSum (recoverContacts world self) ∧
    (recoverFromPenetration world self).2.m_ghostObject.getWorldTransform.getOrigin =
      self.m_ghostObject.getWorldTransform.getOrigin +
        correctionSum (recoverContacts world self) ∧
    (recoverFromPenetration world self).2.m_ghostObject.getWorldTransform.m_basis =
      self.m_ghostObject.getWorldTransform.m_basis :=
  recover_position world self

/-- C7: `recoverFromPenetration` returns true if and only if at least one
contact point of a manifold of the overlapping pairs of the proxy has negative
distance. -/
theorem recoverFromPenetration_returns (world : btCollisionWorld)
    (self : btKinematicCharacterController) :
    (recoverFromPenetration world self).1 = true ↔
      ∃ p ∈ recoverContacts world self, p.2.getDistance < 0 :=
  recover_returns world self

/-- C8: the touching normal that `recoverFromPenetration` leaves, in terms of
the contact points that the call scans.  When some scanned contact point has
negative distance (the call finds penetration), `touchingNormal` is the normal,
times the sign of its manifold, of a scanned contact point of negative distance
whose distance is the least over all the contact points scanned.  When no
scanned contact point has negative distance, `touchingNormal` is what it was
before the call. -/
theorem recoverFromPenetration_touchingNormal (world : btCollisionWorld)
    (self : btKinematicCharacterController) :
    ((∃ p ∈ recoverContacts world self, p.2.getDistance < 0) →
      ∃ p ∈ recoverContacts world self,
        p.2.getDistance < 0 ∧
        (recoverFromPenetration world self).2.m_touchingNormal = p.2.m_normalWorldOnB * p.1 ∧
        ∀ q ∈ recoverContacts world self, p.2.getDistance ≤ q.2.getDistance) ∧
    ((∀ p ∈ recoverContacts world self, ¬ p.2.getDistance < 0) →
      (recoverFromPenetration world self).2.m_touchingNormal = self.m_touchingNormal) := by
  have htn : (recoverFromPenetration world self).2.m_touchingNormal =
      (recoverEnd world self).self.m_touchingNormal := by
    rw [recoverFromPenetration_scan]
  rw [htn]
  have hd := scanContacts_deepest (recoverContacts world self) (recoverStart self)
  constructor
  · rintro ⟨p0, hp0, hneg0⟩
    rcases hd with ⟨_, _, h3⟩ | ⟨p, hp, h1, _, h3, _, h5⟩
    · have h0 : (0 : btScalar) ≤ p0.2.getDistance := h3 p0 hp0 hneg0
      exact absurd hneg0 (not_lt.mpr h0)
    · refine ⟨p, hp, h1, h3, ?_⟩
      intro q hq
      by_cases hneg : q.2.getDistance < 0
      · exact h5 q hq hneg
      · exact le_trans (le_of_lt h1) (not_lt.mp hneg)
  · intro hall
    rcases hd with ⟨_, h2, _⟩ | ⟨p, hp, h1, _⟩
    · exact h2
    · exact absurd h1 (hall p hp)


theorem preStepLoop_eq (world : btCollisionWorld) (numPenetrationLoops : Nat)
    (self : btKinematicCharacterController) :
    preStepLoop world numPenetrationLoops self =
      if (recoverFromPenetration world self).1 = true then
        if 4 < numPenetrationLoops + 1 then
          { (recoverFromPenetration world self).2 with m_touchingContact := true }
        else
          preStepLoop world (numPenetrationLoops + 1)
            { (recoverFromPenetration world self).2 with m_touchingContact := true }
      else (recoverFromPenetration world self).2 := by
  rw [preStepLoop]

theorem recoverFromPenetration_recoverLog (world : btCollisionWorld)
    (self : btKinematicCharacterController) :
    (recoverFromPenetration world self).2.recoverLog =
      self.recoverLog ++ [(recoverFromPenetration world self).1] := by
  rw [recoverFromPenetration_scan]

theorem recoverFromPenetration_touchingContact (world : btCollisionWorld)
    (self : btKinematicCharacterController) :
    (recoverFromPenetration world self).2.m_touchingContact = self.m_touchingContact := by
  rw [recoverFromPenetration_scan]

/-- The loop of `preStep` entered with `numPenetrationLoops = 5 - d`: the values
returned by `recoverFromPenetration` are fewer than `d` times true and then
false, or `d` times true; `m_touchingContact` is set when one of them is true. -/
theorem preStepLoop_log (world : btCollisionWorld) :
    ∀ (d n : Nat) (self : btKinematicCharacterController), n + d = 5 → 0 < d →
      ∃ results : List Bool,
        (preStepLoop world n self).recoverLog = self.recoverLog ++ results ∧
        ((∃ j, j < d ∧ results = List.replicate j true ++ [false]) ∨
          results = List.replicate d true) ∧
        (preStepLoop world n self).m_touchingContact =
          (if true ∈ results then true else self.m_touchingContact) := by
  intro d
  induction d with
  | zero => intro n self _ h; exact absurd h (lt_irrefl 0)
  | succ d ih =>
    intro n self hn _
    have hlog := recoverFromPenetration_recoverLog world self
    have htc := recoverFromPenetration_touchingContact world self
    rw [preStepLoop_eq]
    by_cases hr : (recoverFromPenetration world self).1 = true
    · rw [if_pos hr]
      rw [hr] at hlog
      by_cases h4 : 4 < n + 1
      · rw [if_pos h4]
        have hd : d = 0 := by omega
        subst hd
        exact ⟨[true], hlog, Or.inr rfl, by simp⟩
      · rw [if_neg h4]
        obtain ⟨res, h1, h2, h3⟩ := ih (n + 1)
          { (recoverFromPenetration world self).2 with m_touchingContact := true }
          (by omega) (by omega)
        refine ⟨true :: res, ?_, ?_, ?_⟩
        · rw [h1]
          show (recoverFromPenetration world self).2.recoverLog ++ res = _
          rw [hlog, List.append_assoc]
          rfl
        · rcases h2 with ⟨j, hj, hres⟩ | hres
          · left
            exact ⟨j + 1, by omega, by rw [hres]; rfl⟩
          · right
            rw [hres]; rfl
        · rw [h3]
          simp
    · rw [if_neg hr]
      have hf : (recoverFromPenetration world self).1 = false := by
        cases h : (recoverFromPenetration world self).1
        · rfl
        · exact absurd h hr
      rw [hf] at hlog
      exact ⟨[false], hlog, Or.inl ⟨0, by omega, rfl⟩, by rw [htc]; simp⟩

/-- C9: `preStep` is a total function (it terminates), and whatever the
collision world, it invokes `recoverFromPenetration` at most 5 times and stops
at the first invocation that returns false: the values returned are at most 4
times true and then false, or 5 times true.  After `preStep`, `touchingContact`
is true if and only if one of the invocations returned true. -/
theorem preStep_retries (world : btCollisionWorld) (self : btKinematicCharacterController) :
    ∃ results : List Bool,
      (preStep world self).recoverLog = self.recoverLog ++ results ∧
      results.length ≤ 5 ∧
      ((∃ j, j ≤ 4 ∧ results = List.replicate j true ++ [false]) ∨
        results = List.replicate 5 true) ∧
      ((preStep world self).m_touchingContact = true ↔ true ∈ results) := by
  obtain ⟨res, h1, h2, h3⟩ := preStepLoop_log world 5 0
    { self with m_touchingContact := false } rfl (by norm_num)
  refine ⟨res, h1, ?_, ?_, ?_⟩
  · rcases h2 with ⟨j, hj, hres⟩ | hres
    · rw [hres]; simp; omega
    · rw [hres]; simp
  · rcases h2 with ⟨j, hj, hres⟩ | hres
    · exact Or.inl ⟨j, by omega, hres⟩
    · exact Or.inr hres
  · show (preStepLoop world 0 { self with m_touchingContact := false }).m_touchingContact = true
      ↔ true ∈ res
    rw [h3]
    by_cases hm : true ∈ res
    · simp [hm]
    · simp [hm]

theorem correctionSum_of_nonneg (ps : List (btScalar × btManifoldPoint))
    (h : ∀ p ∈ ps, ¬ p.2.getDistance < 0) : correctionSum ps = ⟨0, 0, 0⟩ := by
  induction ps with
  | nil => rfl
  | cons p ps ih =>
    rw [correctionSum, if_neg (h p (List.mem_cons_self _ _))]
    exact ih (fun q hq => h q (List.mem_cons_of_mem _ hq))

/-- C10: `preStep` with zero initial overlap.  When `currentPosition` is the
origin of the world transform of the proxy and no contact point of the proxy
has negative distance, `preStep` leaves `currentPosition` and the world
transform of the proxy unchanged, sets `targetPosition` to `currentPosition`,
and leaves `touchingContact` false. -/
theorem preStep_no_overlap (world : btCollisionWorld) (self : btKinematicCharacterController)
    (hcur : self.m_currentPosition = self.m_ghostObject.getWorldTransform.getOrigin)
    (hno : ∀ p ∈ recoverContacts world self, ¬ p.2.getDistance < 0) :
    (preStep world self).m_currentPosition = self.m_currentPosition ∧
    (preStep world self).m_ghostObject.getWorldTransform =
      self.m_ghostObject.getWorldTransform ∧
    (preStep world self).m_targetPosition = (preStep world self).m_currentPosition ∧
    (preStep world self).m_touchingContact = false := by
  have hret : (recoverFromPenetration world { self with m_touchingContact := false }).1
      = false := by
    cases h : (recoverFromPenetration world { self with m_touchingContact := false }).1
    · rfl
    · obtain ⟨p, hp, hneg⟩ := (recover_returns world
        { self with m_touchingContact := false }).mp h
      exact absurd hneg (hno p hp)
  have hloop : preStepLoop world 0 { self with m_touchingContact := false } =
      (recoverFromPenetration world { self with m_touchingContact := false }).2 := by
    rw [preStepLoop_eq, if_neg (by rw [hret]; decide)]
  have hpos := (recover_position world
    { self with m_touchingContact := false }).2.1
  have hbasis := (recover_position world
    { self with m_touchingContact := false }).2.2
  have hsum : correctionSum (recoverContacts world { self with m_touchingContact := false })
      = ⟨0, 0, 0⟩ := correctionSum_of_nonneg _ hno
  rw [hsum, add_zero_vec] at hpos
  have htc := recoverFromPenetration_touchingContact world
    { self with m_touchingContact := false }
  have hT : (recoverFromPenetration world
      { self with m_touchingContact := false }).2.m_ghostObject.getWorldTransform =
      self.m_ghostObject.getWorldTransform := by
    cases hT' : (recoverFromPenetration world
      { self with m_touchingContact := false }).2.m_ghostObject.getWorldTransform with
    | mk b o =>
      rw [hT'] at hpos hbasis
      cases hS : self.m_ghostObject.getWorldTransform with
      | mk b' o' =>
        have e1 : ({ self with m_touchingContact := false } :
          btKinematicCharacterController).m_ghostObject.getWorldTransform = ⟨b', o'⟩ := hS
        rw [e1] at hpos hbasis
        simp only [btTransform.getOrigin] at hpos
        simp only at hbasis
        rw [hpos, hbasis]
  have hpre : preStep world self =
      { preStepLoop world 0 { self with m_touchingContact := false } with
        m_currentPosition := (preStepLoop world 0
          { self with m_touchingContact := false }).m_ghostObject.getWorldTransform.getOrigin
        m_targetPosition := (preStepLoop world 0
          { self with m_touchingContact := false }).m_ghostObject.getWorldTransform.getOrigin } :=
    rfl
  rw [hpre, hloop]
  refine ⟨?_, hT, rfl, htc⟩
  show (recoverFromPenetration world
    { self with m_touchingContact := false }).2.m_ghostObject.getWorldTransform.getOrigin = _
  rw [hT, hcur]

/-- C10, witness: the controller at rest in the empty world. -/
theorem preStep_no_overlap_witness :
    (preStep emptyWorld restState).m_currentPosition = restState.m_currentPosition ∧
    (preStep emptyWorld restState).m_ghostObject.getWorldTransform =
      restState.m_ghostObject.getWorldTransform ∧
    (preStep emptyWorld restState).m_targetPosition =
      (preStep emptyWorld restState).m_currentPosition ∧
    (preStep emptyWorld restState).m_touchingContact = false :=
  preStep_no_overlap emptyWorld restState rfl (fun p hp => by cases hp)


/-- C12: `updateTargetPositionBasedOnCollision` with `m = targetPosition -
currentPosition`.  When `|m| ≤ SIMD_EPSILON` the call changes nothing;
otherwise only `targetPosition` changes, to `currentPosition +
perpindicularComponent(r, hitNormal) × normalMag × |m|` with `r` the normalized
reflection of the normalized `m` off `hitNormal`.  The result is the same for
every value of `tangentMag`, and `currentPosition` is unchanged in all cases. -/
theorem updateTarget_spec (lm : LinearMath) (self : btKinematicCharacterController)
    (hitNormal : btVector3) (tangentMag normalMag : btScalar) :
    updateTargetPositionBasedOnCollision lm self hitNormal tangentMag normalMag =
      (if (self.m_targetPosition - self.m_currentPosition).length lm ≤ lm.SIMD_EPSILON then self
       else
        { self with m_targetPosition := (self.m_currentPosition +
            perpindicularComponent
              ((computeReflectionDirection
                ((self.m_targetPosition - self.m_currentPosition).normalize lm)
                hitNormal).normalize lm) hitNormal * normalMag *
              (self.m_targetPosition - self.m_currentPosition).length lm) }) ∧
    (∀ tangentMag' : btScalar,
      updateTargetPositionBasedOnCollision lm self hitNormal tangentMag' normalMag =
        updateTargetPositionBasedOnCollision lm self hitNormal tangentMag normalMag) ∧
    (updateTargetPositionBasedOnCollision lm self hitNormal tangentMag normalMag).m_currentPosition
      = self.m_currentPosition := by
  refine ⟨?_, ?_, updateTarget_currentPosition lm self hitNormal tangentMag normalMag⟩
  · unfold updateTargetPositionBasedOnCollision
    simp only []
    by_cases hlen : (self.m_targetPosition - self.m_currentPosition).length lm ≤ lm.SIMD_EPSILON
    · rw [if_pos hlen, if_neg (not_lt.mpr hlen)]
    · rw [if_neg hlen, if_pos (not_le.mp hlen)]
      by_cases hnm : normalMag = 0
      · subst hnm
        have h0 : ∀ v : btVector3, ∀ l : btScalar,
            self.m_currentPosition + v * (0 : btScalar) * l = self.m_currentPosition := by
          intro v l; ext <;> simp
        simp only [ne_eq, not_true_eq_false, if_false, h0]
      · have hassoc : ∀ v : btVector3, ∀ a l : btScalar, v * (a * l) = v * a * l := by
          intro v a l; ext <;> simp <;> ring
        simp only [ne_eq, hnm, not_false_eq_true, if_true, hassoc]
        rfl
  · intro tangentMag'
    unfold updateTargetPositionBasedOnCollision
    rfl


/-- C13: the reflection law.  For every direction `d` and every normal `n`,
`computeReflectionDirection(d, n) = d - 2 (d·n) n`; and when `n` is a unit
vector the reflection has the length of `d` (the same squared length, hence the
same `length` for every square root) and `reflection · n = -(d · n)`. -/
theorem reflection_law (d n : btVector3) :
    computeReflectionDirection d n = d - ((2 : btScalar) * d.dot n) * n ∧
    (n.dot n = 1 →
      (computeReflectionDirection d n).length2 = d.length2 ∧
      (∀ lm : LinearMath, (computeReflectionDirection d n).length lm = d.length lm) ∧
      (computeReflectionDirection d n).dot n = -(d.dot n)) := by
  refine ⟨rfl, ?_⟩
  intro hn
  have hn' : n.x * n.x + n.y * n.y + n.z * n.z = 1 := hn
  have h2 : (computeReflectionDirection d n).length2 = d.length2 := by
    simp only [computeReflectionDirection, btVector3.length2, btVector3.dot_def,
      btVector3.sub_x, btVector3.sub_y, btVector3.sub_z,
      btVector3.lscale_x, btVector3.lscale_y, btVector3.lscale_z]
    linear_combination (4 * (d.x * n.x + d.y * n.y + d.z * n.z) ^ 2) * hn'
  refine ⟨h2, ?_, ?_⟩
  · intro lm
    rw [btVector3.length, btVector3.length, h2]
  · simp only [computeReflectionDirection, btVector3.dot_def,
      btVector3.sub_x, btVector3.sub_y, btVector3.sub_z,
      btVector3.lscale_x, btVector3.lscale_y, btVector3.lscale_z]
    linear_combination (-2 * (d.x * n.x + d.y * n.y + d.z * n.z)) * hn'

/-- C13, witness: the direction `(1, 2, 3)` reflected off the unit normal
`(0, 1, 0)`. -/
theorem reflection_law_witness :
    (computeReflectionDirection ⟨1, 2, 3⟩ ⟨0, 1, 0⟩).length2 = (⟨1, 2, 3⟩ : btVector3).length2 ∧
    (∀ lm : LinearMath, (computeReflectionDirection ⟨1, 2, 3⟩ ⟨0, 1, 0⟩).length lm =
      (⟨1, 2, 3⟩ : btVector3).length lm) ∧
    (computeReflectionDirection ⟨1, 2, 3⟩ ⟨0, 1, 0⟩).dot ⟨0, 1, 0⟩ =
      -((⟨1, 2, 3⟩ : btVector3).dot ⟨0, 1, 0⟩) :=
  (reflection_law ⟨1, 2, 3⟩ ⟨0, 1, 0⟩).2 (by norm_num [btVector3.dot_def])

/-- C14: the decomposition law.  For every vector `d` and every normal `n`,
`parallelComponent(d, n) + perpindicularComponent(d, n) = d` and
`parallelComponent(d, n) = (d·n) n`; and when `n` is a unit vector,
`perpindicularComponent(d, n) · n = 0`. -/
theorem decomposition_law (d n : btVector3) :
    parallelComponent d n + perpindicularComponent d n = d ∧
    parallelComponent d n = (d.dot n) * n ∧
    (n.dot n = 1 → (perpindicularComponent d n).dot n = 0) := by
  refine ⟨?_, rfl, ?_⟩
  · ext <;> simp [perpindicularComponent]
  · intro hn
    have hn' : n.x * n.x + n.y * n.y + n.z * n.z = 1 := hn
    simp only [perpindicularComponent, parallelComponent, btVector3.dot_def,
      btVector3.sub_x, btVector3.sub_y, btVector3.sub_z,
      btVector3.scale_x, btVector3.scale_y, btVector3.scale_z]
    linear_combination (-(d.x * n.x + d.y * n.y + d.z * n.z)) * hn'

/-- C14, witness: the vector `(1, 2, 3)` and the unit normal `(0, 1, 0)`. -/
theorem decomposition_law_witness :
    (perpindicularComponent ⟨1, 2, 3⟩ ⟨0, 1, 0⟩).dot ⟨0, 1, 0⟩ = 0 :=
  (decomposition_law ⟨1, 2, 3⟩ ⟨0, 1, 0⟩).2.2 (by norm_num [btVector3.dot_def])

/-- C16: `warp(origin)`.  Whatever the state (and the collision world, which
`warp` does not take), after `warp` the world transform of the proxy has the
argument as origin and the identity as orientation, and no sweep, no dispatch
and no penetration recovery was made: the three logs are as before. -/
theorem warp_teleports (self : btKinematicCharacterController) (origin : btVector3) :
    (warp self origin).m_ghostObject.getWorldTransform.getOrigin = origin ∧
    (warp self origin).m_ghostObject.getWorldTransform.m_basis = btMatrix3x3.getIdentity ∧
    (warp self origin).sweepLog = self.sweepLog ∧
    (warp self origin).dispatchLog = self.dispatchLog ∧
    (warp self origin).recoverLog = self.recoverLog :=
  ⟨rfl, rfl, rfl, rfl, rfl⟩


/-- One pass of the loop of `stepForwardAndStrafe` whose sweep reports a hit:
the state left is the retargeting, with the hit normal, of the state at entry
with the sweep logged and the position advanced or kept. -/
theorem strafeBody_hit (lm : LinearMath) (world : btCollisionWorld) (od : btVector3)
    (fraction : btScalar) (self : btKinematicCharacterController)
    (hhit : (strafeCallback world self).hasHit = true) :
    (strafeBody lm world od fraction self).self =
      updateTargetPositionBasedOnCollisionDefault lm
        { self with
          m_currentPosition :=
            (if ((strafeCallback world self).m_hitPointWorld - self.m_currentPosition).length lm
                > self.m_addedMargin then
              btVector3.setInterpolate3 self.m_currentPosition self.m_targetPosition
                (strafeCallback world self).m_closestHitFraction
            else self.m_currentPosition)
          sweepLog := self.sweepLog ++
            [⟨self.m_convexShape.getMargin + self.m_addedMargin,
              btTransform.getIdentity.setOrigin self.m_currentPosition,
              btTransform.getIdentity.setOrigin self.m_targetPosition⟩] }
        (strafeCallback world self).m_hitNormalWorld := by
  unfold strafeBody
  simp only []
  have hcb : sweepCallback world
    { self with
      m_convexShape := self.m_convexShape.setMargin
        (self.m_convexShape.getMargin + self.m_addedMargin) }
    (btTransform.getIdentity.setOrigin self.m_currentPosition)
    (btTransform.getIdentity.setOrigin self.m_targetPosition) = strafeCallback world self := rfl
  simp only [hcb, sweepDone]
  rw [if_pos hhit]
  split_ifs <;> rfl

/-- C18: a hit within the margin.  In a pass of the loop of
`stepForwardAndStrafe` whose sweep reports a hit, `currentPosition` becomes the
interpolation of `currentPosition` and `targetPosition` at the hit fraction when
the distance from `currentPosition` to the hit point is strictly greater than
`addedMargin`, and is unchanged otherwise; in both cases the state left by the
pass is the retargeting, with the hit normal, of the state so advanced. -/
theorem strafeBody_hit_margin (lm : LinearMath) (world : btCollisionWorld) (od : btVector3)
    (fraction : btScalar) (self : btKinematicCharacterController)
    (hhit : (strafeCallback world self).hasHit = true) :
    (strafeBody lm world od fraction self).self.m_currentPosition =
      (if ((strafeCallback world self).m_hitPointWorld - self.m_currentPosition).length lm
          > self.m_addedMargin then
        btVector3.setInterpolate3 self.m_currentPosition self.m_targetPosition
          (strafeCallback world self).m_closestHitFraction
      else self.m_currentPosition) ∧
    (strafeBody lm world od fraction self).self =
      updateTargetPositionBasedOnCollisionDefault lm
        { self with
          m_currentPosition :=
            (if ((strafeCallback world self).m_hitPointWorld - self.m_currentPosition).length lm
                > self.m_addedMargin then
              btVector3.setInterpolate3 self.m_currentPosition self.m_targetPosition
                (strafeCallback world self).m_closestHitFraction
            else self.m_currentPosition)
          sweepLog := self.sweepLog ++
            [⟨self.m_convexShape.getMargin + self.m_addedMargin,
              btTransform.getIdentity.setOrigin self.m_currentPosition,
              btTransform.getIdentity.setOrigin self.m_targetPosition⟩] }
        (strafeCallback world self).m_hitNormalWorld := by
  refine ⟨?_, strafeBody_hit lm world od fraction self hhit⟩
  rw [strafeBody_position, strafePosition, if_pos hhit]

/-- C18, witness: the controller at rest with the target `(1, 0, 0)`, in the
world with a slope ahead, whose first sweep hits. -/
theorem strafeBody_hit_margin_witness :
    (strafeBody exactMath slopeWorld ⟨1, 0, 0⟩ 1
        { restState with m_targetPosition := ⟨1, 0, 0⟩ }).self.m_currentPosition =
      (if ((strafeCallback slopeWorld
            { restState with m_targetPosition := ⟨1, 0, 0⟩ }).m_hitPointWorld -
          ({ restState with m_targetPosition := ⟨1, 0, 0⟩ } :
            btKinematicCharacterController).m_currentPosition).length exactMath
          > ({ restState with m_targetPosition := ⟨1, 0, 0⟩ } :
            btKinematicCharacterController).m_addedMargin then
        btVector3.setInterpolate3
          ({ restState with m_targetPosition := ⟨1, 0, 0⟩ } :
            btKinematicCharacterController).m_currentPosition
          ({ restState with m_targetPosition := ⟨1, 0, 0⟩ } :
            btKinematicCharacterController).m_targetPosition
          (strafeCallback slopeWorld
            { restState with m_targetPosition := ⟨1, 0, 0⟩ }).m_closestHitFraction
      else ({ restState with m_targetPosition := ⟨1, 0, 0⟩ } :
            btKinematicCharacterController).m_currentPosition) :=
  (strafeBody_hit_margin exactMath slopeWorld ⟨1, 0, 0⟩ 1
    { restState with m_targetPosition := ⟨1, 0, 0⟩ } rfl).1


theorem sub_self_vec (a : btVector3) : a - a = ⟨0, 0, 0⟩ := by
  ext <;> simp

/-- With no movement left (`targetPosition = currentPosition`) the retargeting
leaves `targetPosition` where it is, whatever the square root and epsilon. -/
theorem updateTarget_still (lm : LinearMath) (self : btKinematicCharacterController)
    (n : btVector3) (tangentMag normalMag : btScalar)
    (h : self.m_targetPosition = self.m_currentPosition) :
    (updateTargetPositionBasedOnCollision lm self n tangentMag normalMag).m_targetPosition =
      self.m_currentPosition := by
  unfold updateTargetPositionBasedOnCollision
  simp only [h, sub_self_vec]
  split_ifs <;> first
    | rfl
    | exact h
    | (exfalso; omega)
    | (ext <;>
        simp [perpindicularComponent, parallelComponent, computeReflectionDirection,
          btVector3.normalize, btVector3.div, btVector3.dot_def])

/-- One pass of the loop of `stepForwardAndStrafe` entered with
`targetPosition = currentPosition` leaves both where they are. -/
theorem strafeBody_still (lm : LinearMath) (world : btCollisionWorld) (od : btVector3)
    (fraction : btScalar) (self : btKinematicCharacterController)
    (h : self.m_targetPosition = self.m_currentPosition) :
    (strafeBody lm world od fraction self).self.m_currentPosition = self.m_currentPosition ∧
    (strafeBody lm world od fraction self).self.m_targetPosition = self.m_currentPosition := by
  have hpos : strafePosition lm self (strafeCallback world self) = self.m_currentPosition := by
    unfold strafePosition
    rw [h]
    split_ifs
    · ext <;> simp [btVector3.setInterpolate3] <;> ring
    · rfl
    · rfl
  refine ⟨by rw [strafeBody_position, hpos], ?_⟩
  rw [strafeBody_target, hpos]
  split_ifs
  · rw [updateTarget_still lm _ _ 0 1 h]
  · exact h

theorem strafeLoop_still (lm : LinearMath) (world : btCollisionWorld) (od : btVector3) :
    ∀ (maxIter : Nat) (fraction : btScalar) (self : btKinematicCharacterController),
      self.m_targetPosition = self.m_currentPosition →
      (strafeLoop lm world od maxIter fraction self).m_currentPosition =
        self.m_currentPosition ∧
      (strafeLoop lm world od maxIter fraction self).m_targetPosition =
        self.m_currentPosition := by
  intro maxIter
  induction maxIter with
  | zero => intro fraction self h; exact ⟨rfl, h⟩
  | succ k ih =>
    intro fraction self h
    obtain ⟨h1, h2⟩ := strafeBody_still lm world od fraction self h
    rw [strafeLoop_succ]
    split_ifs
    · obtain ⟨h3, h4⟩ := ih (strafeBody lm world od fraction self).fraction
        (strafeBody lm world od fraction self).self (by rw [h1, h2])
      exact ⟨by rw [h3, h1], by rw [h4, h1]⟩
    · exact ⟨h1, h2⟩
    · exact ⟨rfl, h⟩

/-- C20: a zero walk move is a no-op on the position.  Whatever the state
(touching or not, any `touchingNormal`), the square root, the epsilon and the
answers of the collision world, `stepForwardAndStrafe` with
`walkMove = (0, 0, 0)` returns with `currentPosition` unchanged and
`targetPosition` equal to `currentPosition`. -/
theorem stepForwardAndStrafe_zero (lm : LinearMath) (world : btCollisionWorld)
    (self : btKinematicCharacterController) :
    (stepForwardAndStrafe lm world self ⟨0, 0, 0⟩).m_currentPosition = self.m_currentPosition ∧
    (stepForwardAndStrafe lm world self ⟨0, 0, 0⟩).m_targetPosition =
      (stepForwardAndStrafe lm world self ⟨0, 0, 0⟩).m_currentPosition := by
  have key : (stepForwardAndStrafe lm world self ⟨0, 0, 0⟩).m_currentPosition =
      self.m_currentPosition ∧
      (stepForwardAndStrafe lm world self ⟨0, 0, 0⟩).m_targetPosition =
        self.m_currentPosition := by
    unfold stepForwardAndStrafe
    simp only [add_zero_vec]
    split_ifs
    · have hs : (updateTargetPositionBasedOnCollisionDefault lm
          { self with m_targetPosition := self.m_currentPosition }
          self.m_touchingNormal).m_targetPosition =
          (updateTargetPositionBasedOnCollisionDefault lm
          { self with m_targetPosition := self.m_currentPosition }
          self.m_touchingNormal).m_currentPosition := by
        unfold updateTargetPositionBasedOnCollisionDefault
        rw [updateTarget_still lm _ _ 0 1 rfl, updateTarget_currentPosition]
      have hc : (updateTargetPositionBasedOnCollisionDefault lm
          { self with m_targetPosition := self.m_currentPosition }
          self.m_touchingNormal).m_currentPosition = self.m_currentPosition := by
        unfold updateTargetPositionBasedOnCollisionDefault
        rw [updateTarget_currentPosition]
      obtain ⟨h1, h2⟩ := strafeLoop_still lm world (originalDir lm ⟨0, 0, 0⟩) 10 1 _ hs
      exact ⟨by rw [h1, hc], by rw [h2, hc]⟩
    · exact strafeLoop_still lm world (originalDir lm ⟨0, 0, 0⟩) 10 1
        { self with m_targetPosition := self.m_currentPosition } rfl
    · exact strafeLoop_still lm world (originalDir lm ⟨0, 0, 0⟩) 10 1
        { self with m_targetPosition := self.m_currentPosition } rfl
  exact ⟨key.1, by rw [key.2, key.1]⟩


/-- The state `stepUp` leaves when its sweep hits nothing. -/
theorem stepUp_clear (world : btCollisionWorld) (self : btKinematicCharacterController)
    (hup : (stepUpCallback world self).hasHit = false) :
    stepUp world self =
      { self with
        m_targetPosition := self.m_currentPosition + (⟨0, self.m_stepHeight, 0⟩ : btVector3)
        m_currentPosition := self.m_currentPosition + (⟨0, self.m_stepHeight, 0⟩ : btVector3)
        m_currentStepOffset := self.m_stepHeight
        sweepLog := self.sweepLog ++
          [⟨self.m_convexShape.getMargin,
            btTransform.getIdentity.setOrigin
              (self.m_currentPosition + (⟨0, 1 / 10, 0⟩ : btVector3)),
            btTransform.getIdentity.setOrigin
              (self.m_currentPosition + (⟨0, self.m_stepHeight, 0⟩ : btVector3))⟩] } := by
  have hcb : sweepCallback world
      { self with
        m_targetPosition := self.m_currentPosition + (⟨0, self.m_stepHeight, 0⟩ : btVector3) }
      (btTransform.getIdentity.setOrigin
        (self.m_currentPosition + (⟨0, 1 / 10, 0⟩ : btVector3)))
      (btTransform.getIdentity.setOrigin
        (self.m_currentPosition + (⟨0, self.m_stepHeight, 0⟩ : btVector3))) =
      stepUpCallback world self := rfl
  unfold stepUp
  simp only [hcb]
  rw [if_neg (by rw [hup]; decide)]
  rfl

/-- The state `stepForwardAndStrafe` leaves when the controller is not touching
and its first sweep hits nothing, with closest hit fraction `1`: the whole move
is made with one sweep. -/
theorem stepForwardAndStrafe_clear (lm : LinearMath) (world : btCollisionWorld)
    (self : btKinematicCharacterController) (walkMove : btVector3)
    (htouch : self.m_touchingContact = false)
    (hhit : (strafeCallback world
      { self with m_targetPosition := self.m_currentPosition + walkMove }).hasHit = false)
    (hfrac : (strafeCallback world
      { self with m_targetPosition := self.m_currentPosition + walkMove }).m_closestHitFraction
        = 1) :
    stepForwardAndStrafe lm world self walkMove =
      { self with
        m_targetPosition := self.m_currentPosition + walkMove
        m_currentPosition := self.m_currentPosition + walkMove
        sweepLog := self.sweepLog ++
          [⟨self.m_convexShape.getMargin + self.m_addedMargin,
            btTransform.getIdentity.setOrigin self.m_currentPosition,
            btTransform.getIdentity.setOrigin (self.m_currentPosition + walkMove)⟩] } := by
  have hnot : ¬ ((strafeCallback world
      { self with m_targetPosition := self.m_currentPosition + walkMove }).hasHit = true) := by
    rw [hhit]; decide
  have hgo := strafeBody_goOn lm world (originalDir lm walkMove) 1
    { self with m_targetPosition := self.m_currentPosition + walkMove }
  rw [if_neg hnot] at hgo
  have hfr := strafeBody_fraction lm world (originalDir lm walkMove) 1
    { self with m_targetPosition := self.m_currentPosition + walkMove }
  rw [hfrac] at hfr
  have hpos := strafeBody_position lm world (originalDir lm walkMove) 1
    { self with m_targetPosition := self.m_currentPosition + walkMove }
  rw [strafePosition, if_neg hnot] at hpos
  have htg := strafeBody_target lm world (originalDir lm walkMove) 1
    { self with m_targetPosition := self.m_currentPosition + walkMove }
  rw [if_neg hnot] at htg
  have hcall : stepForwardAndStrafe lm world self walkMove =
      (strafeBody lm world (originalDir lm walkMove) 1
        { self with m_targetPosition := self.m_currentPosition + walkMove }).self := by
    unfold stepForwardAndStrafe
    simp only []
    rw [if_neg (show ¬ (self.m_touchingContact = true) by rw [htouch]; decide),
      show (10 : Nat) = 9 + 1 from rfl, strafeLoop_succ, if_pos (by norm_num), hgo, if_pos rfl,
      show (9 : Nat) = 8 + 1 from rfl, strafeLoop_succ, hfr, if_neg (by norm_num)]
  rw [hcall, strafeBody_frame, hpos, htg]

/-- The transform `playerStep` leaves: that at entry, with the position left by
the three phases as origin. -/
theorem playerStep_transform (lm : LinearMath) (world : btCollisionWorld)
    (self : btKinematicCharacterController) (dt : btScalar) :
    (playerStep lm world self dt).m_ghostObject.getWorldTransform =
      self.m_ghostObject.getWorldTransform.setOrigin
        (stepDown world
          (stepForwardAndStrafe lm world (stepUp world self)
            (stepUp world self).m_walkDirection) dt).m_currentPosition := rfl


/-- C15: one tick on flat ground.  From a state as `preStep` leaves it without
overlap (`touchingContact` false, `currentPosition` the origin of the proxy),
with `walkDirection = (1, 0, 0)`, a step-up sweep that hits nothing, a
horizontal sweep that hits nothing (closest hit fraction `1`), and a step-down
sweep that lands on the ground at the original height (it hits where the
descent `f × (currentStepOffset + stepHeight)` equals the climb `stepHeight`):
`playerStep` leaves the origin of the proxy displaced by exactly `(1, 0, 0)`,
and its orientation unchanged. -/
theorem playerStep_flat_ground (lm : LinearMath) (world : btCollisionWorld)
    (self : btKinematicCharacterController) (dt : btScalar)
    (htouch : self.m_touchingContact = false)
    (hcur : self.m_currentPosition = self.m_ghostObject.getWorldTransform.getOrigin)
    (hwalk : self.m_walkDirection = ⟨1, 0, 0⟩)
    (hup : (stepUpCallback world self).hasHit = false)
    (hfwd : (strafeCallback world
        { stepUp world self with
          m_targetPosition := (stepUp world self).m_currentPosition + ⟨1, 0, 0⟩ }).hasHit = false)
    (hfwd1 : (strafeCallback world
        { stepUp world self with
          m_targetPosition :=
            (stepUp world self).m_currentPosition + ⟨1, 0, 0⟩ }).m_closestHitFraction = 1)
    (hdown : (stepDownCallback world
        (stepForwardAndStrafe lm world (stepUp world self) ⟨1, 0, 0⟩)).hasHit = true)
    (hland : (stepDownCallback world
        (stepForwardAndStrafe lm world (stepUp world self) ⟨1, 0, 0⟩)).m_closestHitFraction *
        ((stepForwardAndStrafe lm world (stepUp world self) ⟨1, 0, 0⟩).m_currentStepOffset +
          (stepForwardAndStrafe lm world (stepUp world self) ⟨1, 0, 0⟩).m_stepHeight) =
        self.m_stepHeight) :
    (playerStep lm world self dt).m_ghostObject.getWorldTransform.getOrigin =
      self.m_ghostObject.getWorldTransform.getOrigin + ⟨1, 0, 0⟩ ∧
    (playerStep lm world self dt).m_ghostObject.getWorldTransform.m_basis =
      self.m_ghostObject.getWorldTransform.m_basis := by
  have hs1 := stepUp_clear world self hup
  have hw1 : (stepUp world self).m_walkDirection = ⟨1, 0, 0⟩ := by rw [hs1]; exact hwalk
  have ht1 : (stepUp world self).m_touchingContact = false := by rw [hs1]; exact htouch
  have hs2 := stepForwardAndStrafe_clear lm world (stepUp world self) ⟨1, 0, 0⟩ ht1 hfwd hfwd1
  rw [playerStep_transform, hw1]
  refine ⟨?_, rfl⟩
  show (stepDown world (stepForwardAndStrafe lm world (stepUp world self) ⟨1, 0, 0⟩)
    dt).m_currentPosition = _
  rw [stepDown_position, if_pos hdown]
  generalize (stepDownCallback world
    (stepForwardAndStrafe lm world (stepUp world self) ⟨1, 0, 0⟩)).m_closestHitFraction = f
    at hland ⊢
  rw [hs2] at hland ⊢
  simp only [] at hland ⊢
  rw [hs1] at hland ⊢
  simp only [] at hland ⊢
  rw [← hcur]
  ext
  · simp only [btVector3.setInterpolate3, btVector3.add_x, btVector3.sub_x]
    ring
  · simp only [btVector3.setInterpolate3, btVector3.add_y, btVector3.sub_y]
    linear_combination (-1 : btScalar) * hland
  · simp only [btVector3.setInterpolate3, btVector3.add_z, btVector3.sub_z]
    ring

/-- C15, witness: the controller at rest on the flat ground of `groundWorld`,
with step height `0.35`; the step-down sweep covers `0.7` and lands at fraction
`1/2`. -/
theorem playerStep_flat_ground_witness :
    (playerStep exactMath groundWorld restState (1 / 60)).m_ghostObject.getWorldTransform.getOrigin
      = restState.m_ghostObject.getWorldTransform.getOrigin + ⟨1, 0, 0⟩ ∧
    (playerStep exactMath groundWorld restState (1 / 60)).m_ghostObject.getWorldTransform.m_basis
      = restState.m_ghostObject.getWorldTransform.m_basis := by
  have hup : (stepUpCallback groundWorld restState).hasHit = false := rfl
  have hs1 := stepUp_clear groundWorld restState hup
  have hfwd : (strafeCallback groundWorld
      { stepUp groundWorld restState with
        m_targetPosition :=
          (stepUp groundWorld restState).m_currentPosition + ⟨1, 0, 0⟩ }).hasHit = false := by
    rw [hs1]; rfl
  have hfwd1 : (strafeCallback groundWorld
      { stepUp groundWorld restState with
        m_targetPosition :=
          (stepUp groundWorld restState).m_currentPosition + ⟨1, 0, 0⟩ }).m_closestHitFraction
        = 1 := by
    rw [hs1]; rfl
  have hs2 := stepForwardAndStrafe_clear exactMath groundWorld (stepUp groundWorld restState)
    ⟨1, 0, 0⟩ (by rw [hs1]; rfl) hfwd hfwd1
  have hdown : (stepDownCallback groundWorld
      (stepForwardAndStrafe exactMath groundWorld (stepUp groundWorld restState)
        ⟨1, 0, 0⟩)).hasHit = true := by
    rw [hs2, hs1]; rfl
  have hfrac : (stepDownCallback groundWorld
      (stepForwardAndStrafe exactMath groundWorld (stepUp groundWorld restState)
        ⟨1, 0, 0⟩)).m_closestHitFraction = 1 / 2 := by
    rw [hs2, hs1]; rfl
  have hland : (stepDownCallback groundWorld
      (stepForwardAndStrafe exactMath groundWorld (stepUp groundWorld restState)
        ⟨1, 0, 0⟩)).m_closestHitFraction *
      ((stepForwardAndStrafe exactMath groundWorld (stepUp groundWorld restState)
          ⟨1, 0, 0⟩).m_currentStepOffset +
        (stepForwardAndStrafe exactMath groundWorld (stepUp groundWorld restState)
          ⟨1, 0, 0⟩).m_stepHeight) = restState.m_stepHeight := by
    rw [hfrac, hs2, hs1]
    norm_num [restState]
  exact playerStep_flat_ground exactMath groundWorld restState (1 / 60) rfl rfl rfl hup hfwd
    hfwd1 hdown hland


theorem recoverFromPenetration_address (world : btCollisionWorld)
    (self : btKinematicCharacterController) :
    (recoverFromPenetration world self).2.m_ghostObject.address = self.m_ghostObject.address := by
  rw [recoverFromPenetration_scan]
  rfl

/-- One call of `recoverFromPenetration` against a single obstruction whose
distance `dist` grows by the displacement along the outward normal `-s n`: when
the proxy overlaps (`dist < 0`) the call returns true and is left with `4/5` of
the distance. -/
theorem recover_damped (world : btCollisionWorld) (st : btKinematicCharacterController)
    (dist : btVector3 → btScalar) (n : btVector3) (s : btScalar)
    (hn : n.dot n = 1) (hs : s * s = 1)
    (hdist : ∀ p v : btVector3, dist (p + v) = dist p + v.dot (n * (-s)))
    (hworld : ∀ (k : Nat) (t : btTransform),
      contactPoints st.m_ghostObject.address (world.dispatchAllCollisionPairs k t) =
        [(s, ⟨n, dist t.getOrigin⟩)])
    (hd : dist st.m_ghostObject.getWorldTransform.getOrigin < 0) :
    (recoverFromPenetration world st).1 = true ∧
    dist (recoverFromPenetration world st).2.m_ghostObject.getWorldTransform.getOrigin =
      4 / 5 * dist st.m_ghostObject.getWorldTransform.getOrigin := by
  have hpts : recoverContacts world st =
      [(s, ⟨n, dist st.m_ghostObject.getWorldTransform.getOrigin⟩)] := hworld _ _
  have hn' : n.x * n.x + n.y * n.y + n.z * n.z = 1 := hn
  constructor
  · rw [recover_returns, hpts]
    exact ⟨_, List.mem_singleton.mpr rfl, hd⟩
  · rw [(recover_position world st).2.1, hpts, hdist]
    have hsum : correctionSum [(s, (⟨n, dist st.m_ghostObject.getWorldTransform.getOrigin⟩ :
        btManifoldPoint))] =
        n * s * dist st.m_ghostObject.getWorldTransform.getOrigin * ((1 : btScalar) / 5) +
          (⟨0, 0, 0⟩ : btVector3) := by
      rw [correctionSum, if_pos (show (s, (⟨n, dist st.m_ghostObject.getWorldTransform.getOrigin⟩ :
        btManifoldPoint)).2.getDistance < 0 from hd)]
      rfl
    rw [hsum]
    simp only [btVector3.dot_def, btVector3.add_x, btVector3.add_y, btVector3.add_z,
      btVector3.scale_x, btVector3.scale_y, btVector3.scale_z]
    generalize dist st.m_ghostObject.getWorldTransform.getOrigin = d
    linear_combination (-(d / 5)) * hs * (n.x * n.x + n.y * n.y + n.z * n.z) + (-(d / 5)) * hn'

/-- The loop of `preStep` against such an obstruction, entered with
`numPenetrationLoops = 5 - j`: `j` calls, all returning true, each leaving
`4/5` of the distance. -/
theorem preStepLoop_damped (world : btCollisionWorld) (address : Nat)
    (dist : btVector3 → btScalar) (n : btVector3) (s : btScalar)
    (hn : n.dot n = 1) (hs : s * s = 1)
    (hdist : ∀ p v : btVector3, dist (p + v) = dist p + v.dot (n * (-s)))
    (hworld : ∀ (k : Nat) (t : btTransform),
      contactPoints address (world.dispatchAllCollisionPairs k t) =
        [(s, ⟨n, dist t.getOrigin⟩)]) :
    ∀ (j loops : Nat) (st : btKinematicCharacterController), loops + j = 5 → 0 < j →
      st.m_ghostObject.address = address →
      dist st.m_ghostObject.getWorldTransform.getOrigin < 0 →
      (preStepLoop world loops st).recoverLog = st.recoverLog ++ List.replicate j true ∧
      (preStepLoop world loops st).m_touchingContact = true ∧
      dist (preStepLoop world loops st).m_ghostObject.getWorldTransform.getOrigin =
        (4 / 5) ^ j * dist st.m_ghostObject.getWorldTransform.getOrigin := by
  intro j
  induction j with
  | zero => intro loops st _ h; exact absurd h (lt_irrefl 0)
  | succ j ih =>
    intro loops st hsum _ haddr hd
    obtain ⟨hret, hnew⟩ := recover_damped world st dist n s hn hs hdist
      (by rw [haddr]; exact hworld) hd
    have hlog := recoverFromPenetration_recoverLog world st
    rw [hret] at hlog
    rw [preStepLoop_eq, if_pos hret]
    by_cases h4 : 4 < loops + 1
    · rw [if_pos h4]
      have hj : j = 0 := by omega
      subst hj
      refine ⟨hlog, rfl, ?_⟩
      show dist (recoverFromPenetration world st).2.m_ghostObject.getWorldTransform.getOrigin = _
      rw [hnew]; ring
    · rw [if_neg h4]
      have hd' : dist ({ (recoverFromPenetration world st).2 with
          m_touchingContact := true } :
          btKinematicCharacterController).m_ghostObject.getWorldTransform.getOrigin < 0 := by
        show dist (recoverFromPenetration world st).2.m_ghostObject.getWorldTransform.getOrigin
          < 0
        rw [hnew]; linarith
      obtain ⟨h1, h2, h3⟩ := ih (loops + 1)
        { (recoverFromPenetration world st).2 with m_touchingContact := true }
        (by omega) (by omega)
        (by
          show (recoverFromPenetration world st).2.m_ghostObject.address = address
          rw [recoverFromPenetration_address, haddr])
        hd'
      refine ⟨?_, h2, ?_⟩
      · rw [h1]
        show (recoverFromPenetration world st).2.recoverLog ++ List.replicate j true = _
        rw [hlog, List.append_assoc]
        rfl
      · rw [h3]
        show (4 / 5 : btScalar) ^ j *
          dist (recoverFromPenetration world st).2.m_ghostObject.getWorldTransform.getOrigin = _
        rw [hnew]; ring

/-- `preStep` against a single obstruction whose distance grows by the
displacement along the outward normal: five calls of `recoverFromPenetration`,
all returning true, and `(4/5)⁵` of the distance left. -/
theorem preStep_damped (world : btCollisionWorld) (self : btKinematicCharacterController)
    (dist : btVector3 → btScalar) (n : btVector3) (s : btScalar)
    (hn : n.dot n = 1) (hs : s * s = 1)
    (hdist : ∀ p v : btVector3, dist (p + v) = dist p + v.dot (n * (-s)))
    (hworld : ∀ (k : Nat) (t : btTransform),
      contactPoints self.m_ghostObject.address (world.dispatchAllCollisionPairs k t) =
        [(s, ⟨n, dist t.getOrigin⟩)])
    (hd : dist self.m_ghostObject.getWorldTransform.getOrigin < 0) :
    (preStep world self).recoverLog = self.recoverLog ++ List.replicate 5 true ∧
    (preStep world self).m_touchingContact = true ∧
    dist (preStep world self).m_ghostObject.getWorldTransform.getOrigin =
      (4 / 5) ^ 5 * dist self.m_ghostObject.getWorldTransform.getOrigin :=
  preStepLoop_damped world self.m_ghostObject.address dist n s hn hs hdist hworld 5 0
    { self with m_touchingContact := false } rfl (by norm_num) rfl hd

/-- C11 (amended): recovery against a single static obstruction does not
converge within the retry cap.  For one contact point of unit normal `n` and
sign `s`, whose distance `dist` grows by the displacement of the proxy along
the outward normal `-s n` and is negative at entry, every call of
`recoverFromPenetration` leaves `4/5` of the distance, so `preStep` makes
exactly 5 calls that all return true, sets `touchingContact`, and leaves the
proxy overlapping with `(4/5)⁵` of the initial distance. -/
theorem preStep_residual_penetration (world : btCollisionWorld)
    (self : btKinematicCharacterController)
    (dist : btVector3 → btScalar) (n : btVector3) (s : btScalar)
    (hn : n.dot n = 1) (hs : s * s = 1)
    (hdist : ∀ p v : btVector3, dist (p + v) = dist p + v.dot (n * (-s)))
    (hworld : ∀ (k : Nat) (t : btTransform),
      contactPoints self.m_ghostObject.address (world.dispatchAllCollisionPairs k t) =
        [(s, ⟨n, dist t.getOrigin⟩)])
    (hd : dist self.m_ghostObject.getWorldTransform.getOrigin < 0) :
    (preStep world self).recoverLog = self.recoverLog ++ List.replicate 5 true ∧
    (preStep world self).m_touchingContact = true ∧
    dist (preStep world self).m_ghostObject.getWorldTransform.getOrigin =
      (4 / 5) ^ 5 * dist self.m_ghostObject.getWorldTransform.getOrigin ∧
    dist (preStep world self).m_ghostObject.getWorldTransform.getOrigin < 0 := by
  obtain ⟨h1, h2, h3⟩ := preStep_damped world self dist n s hn hs hdist hworld hd
  refine ⟨h1, h2, h3, ?_⟩
  rw [h3]
  have : (0 : btScalar) < (4 / 5) ^ 5 := by norm_num
  nlinarith

theorem floorDistance_linear (p v : btVector3) :
    floorDistance (p + v) = floorDistance p + v.dot ((⟨0, 1, 0⟩ : btVector3) * (-(-1 : btScalar))) := by
  simp [floorDistance, btVector3.dot_def, btVector3.mk_scale]
  ring

theorem floorWorld_contacts (k : Nat) (t : btTransform) :
    contactPoints restState.m_ghostObject.address (floorWorld.dispatchAllCollisionPairs k t) =
      [((-1 : btScalar), ⟨⟨0, 1, 0⟩, floorDistance t.getOrigin⟩)] := rfl

theorem floorDistance_rest :
    floorDistance restState.m_ghostObject.getWorldTransform.getOrigin < 0 := by
  norm_num [floorDistance, restState, btTransform.getIdentity, btTransform.getOrigin,
    btPairCachingGhostObject.getWorldTransform]

/-- C11, witness of the amended claim: the controller at rest overlapping the
floor of `floorWorld` by `0.1`. -/
theorem preStep_residual_penetration_witness :
    (preStep floorWorld restState).recoverLog = restState.recoverLog ++ List.replicate 5 true ∧
    (preStep floorWorld restState).m_touchingContact = true ∧
    floorDistance (preStep floorWorld restState).m_ghostObject.getWorldTransform.getOrigin =
      (4 / 5) ^ 5 * floorDistance restState.m_ghostObject.getWorldTransform.getOrigin ∧
    floorDistance (preStep floorWorld restState).m_ghostObject.getWorldTransform.getOrigin < 0 :=
  preStep_residual_penetration floorWorld restState floorDistance ⟨0, 1, 0⟩ (-1)
    (by norm_num [btVector3.dot_def]) (by norm_num) floorDistance_linear floorWorld_contacts
    floorDistance_rest

/-- C11, counterexample: the controller at rest overlaps the floor of
`floorWorld` by `0.1`, a single contact point of unit normal whose distance
grows by the upward displacement.  None of the calls of `recoverFromPenetration`
that `preStep` makes returns false, and after `preStep` the distance of the
proxy to the floor is still negative. -/
theorem preStep_convergence_counterexample :
    false ∉ (preStep floorWorld restState).recoverLog ∧
    floorDistance (preStep floorWorld restState).m_ghostObject.getWorldTransform.getOrigin < 0 := by
  obtain ⟨h1, _, h3⟩ := preStep_damped floorWorld restState floorDistance ⟨0, 1, 0⟩ (-1)
    (by norm_num [btVector3.dot_def]) (by norm_num) floorDistance_linear floorWorld_contacts
    floorDistance_rest
  constructor
  · rw [h1]
    simp [restState]
  · rw [h3]
    have := floorDistance_rest
    have h5 : (0 : btScalar) < (4 / 5) ^ 5 := by norm_num
    nlinarith


theorem ratSqrt_zero : ratSqrt 0 = 0 := ratSqrt_of_sq 0 0 (le_refl 0) (by norm_num)

/-- C17: the normalization of line 247 is not guarded.  With
`walkMove = (0, 0, 0)`, `stepForwardAndStrafe` normalizes `walkMove` (a
division by its length `0`) before the comparison with `SIMD_EPSILON` of line
248: the checked run of lines 247-251 faults.  Whenever the checked run does
not fault, it yields the direction that the embedded code computes. -/
theorem originalDir_unguarded :
    (⟨0, 0, 0⟩ : btVector3).length exactMath = 0 ∧
    originalDirChecked exactMath ⟨0, 0, 0⟩ = none ∧
    (∀ (lm : LinearMath) (walkMove v : btVector3),
      originalDirChecked lm walkMove = some v → v = originalDir lm walkMove) := by
  have hl : (⟨0, 0, 0⟩ : btVector3).length exactMath = 0 := by
    norm_num [btVector3.length, btVector3.length2, btVector3.dot_def, exactMath, ratSqrt_zero]
  refine ⟨hl, ?_, ?_⟩
  · unfold originalDirChecked normalizeChecked
    rw [hl, if_neg (by norm_num [exactMath])]
  · intro lm walkMove v h
    unfold originalDirChecked normalizeChecked at h
    by_cases hc : walkMove.length lm > lm.SIMD_EPSILON
    · rw [if_pos hc] at h
      simp only [Option.some.injEq] at h
      rw [← h]
      rfl
    · rw [if_neg hc] at h
      exact absurd h (by simp)

/-- C8, witness.  The controller at rest overlaps the floor of `floorWorld` by
`0.1`: the single contact point scanned has normal `(0, 1, 0)`, sign `-1` and
distance `-0.1`, and the call leaves the touching normal `(0, -1, 0)`.  Warped
to `(0, 1, 0)`, the controller is `0.9` above the floor: the contact point
scanned has distance `0.9`, and the call leaves the touching normal as it was. -/
theorem recoverFromPenetration_touchingNormal_witness :
    (recoverFromPenetration floorWorld restState).2.m_touchingNormal = ⟨0, -1, 0⟩ ∧
    (recoverFromPenetration floorWorld (warp restState ⟨0, 1, 0⟩)).2.m_touchingNormal =
      (warp restState ⟨0, 1, 0⟩).m_touchingNormal := by
  have hc : recoverContacts floorWorld restState =
      [((-1 : btScalar), ⟨⟨0, 1, 0⟩, floorDistance ⟨0, 0, 0⟩⟩)] := rfl
  have hw : recoverContacts floorWorld (warp restState ⟨0, 1, 0⟩) =
      [((-1 : btScalar), ⟨⟨0, 1, 0⟩, floorDistance ⟨0, 1, 0⟩⟩)] := rfl
  constructor
  · obtain ⟨p, hp, _, hn, _⟩ :=
      (recoverFromPenetration_touchingNormal floorWorld restState).1
        ⟨_, by rw [hc]; exact List.mem_singleton_self _,
          by norm_num [btManifoldPoint.getDistance, floorDistance]⟩
    rw [hc, List.mem_singleton] at hp
    rw [hn, hp]
    norm_num [btVector3.mk_scale]
  · apply (recoverFromPenetration_touchingNormal floorWorld (warp restState ⟨0, 1, 0⟩)).2
    intro p hp
    rw [hw, List.mem_singleton] at hp
    rw [hp]
    norm_num [btManifoldPoint.getDistance, floorDistance]

end btKinematicCharacterController

namespace Generic

variable {K : Type} [LinearOrderedField K]

namespace btVector3

@[simp] theorem generic_add_x (a b : btVector3 K) : (a + b).x = a.x + b.x := rfl
@[simp] theorem generic_add_y (a b : btVector3 K) : (a + b).y = a.y + b.y := rfl
@[simp] theorem generic_add_z (a b : btVector3 K) : (a + b).z = a.z + b.z := rfl
@[simp] theorem generic_sub_x (a b : btVector3 K) : (a - b).x = a.x - b.x := rfl
@[simp] theorem generic_sub_y (a b : btVector3 K) : (a - b).y = a.y - b.y := rfl
@[simp] theorem generic_sub_z (a b : btVector3 K) : (a - b).z = a.z - b.z := rfl
@[simp] theorem generic_scale_x (a : btVector3 K) (s : K) : (a * s).x = a.x * s := rfl
@[simp] theorem generic_scale_y (a : btVector3 K) (s : K) : (a * s).y = a.y * s := rfl
@[simp] theorem generic_scale_z (a : btVector3 K) (s : K) : (a * s).z = a.z * s := rfl
@[simp] theorem generic_lscale_x (s : K) (a : btVector3 K) : (s * a).x = a.x * s := rfl
@[simp] theorem generic_lscale_y (s : K) (a : btVector3 K) : (s * a).y = a.y * s := rfl
@[simp] theorem generic_lscale_z (s : K) (a : btVector3 K) : (s * a).z = a.z * s := rfl

theorem generic_dot_def (a b : btVector3 K) :
    a.dot b = a.x * b.x + a.y * b.y + a.z * b.z := rfl

theorem generic_length2_nonneg (a : btVector3 K) : 0 ≤ a.length2 := by
  rw [length2, generic_dot_def]
  nlinarith [mul_self_nonneg a.x, mul_self_nonneg a.y, mul_self_nonneg a.z]

theorem generic_length2_eq_zero (a : btVector3 K) (h : a.length2 = 0) : a = ⟨0, 0, 0⟩ := by
  have h' : a.x * a.x + a.y * a.y + a.z * a.z = 0 := h
  have hx : a.x = 0 := by
    nlinarith [mul_self_nonneg a.x, mul_self_nonneg a.y, mul_self_nonneg a.z]
  have hy : a.y = 0 := by
    nlinarith [mul_self_nonneg a.x, mul_self_nonneg a.y, mul_self_nonneg a.z]
  have hz : a.z = 0 := by
    nlinarith [mul_self_nonneg a.x, mul_self_nonneg a.y, mul_self_nonneg a.z]
  ext <;> assumption

end btVector3

namespace btKinematicCharacterController

/-- The vector computation of the retargeting over a field: for a unit normal
and a square root exact at the squared length of `m` and at `1`, the
perpendicular component of the normalized reflection of the normalized `m`,
scaled by the length of `m`, is the perpendicular component of `m`. -/
theorem generic_retarget_vec (lm : LinearMath K) (m n : btVector3 K) (normalMag : K)
    (hn : n.dot n = 1) (hlen : m.length lm * m.length lm = m.length2)
    (hone : lm.btSqrt 1 = 1) :
    perpindicularComponent
        ((computeReflectionDirection (m.normalize lm) n).normalize lm) n *
        (normalMag * m.length lm) =
      perpindicularComponent m n * normalMag := by
  by_cases h0 : m.length lm = 0
  · have hm : m = ⟨0, 0, 0⟩ := by
      apply btVector3.generic_length2_eq_zero
      rw [← hlen, h0]; ring
    subst hm
    ext <;>
      simp [perpindicularComponent, parallelComponent, computeReflectionDirection,
        btVector3.normalize, btVector3.div, btVector3.generic_dot_def]
  · have hn' : n.x * n.x + n.y * n.y + n.z * n.z = 1 := hn
    have hlen' : m.length lm * m.length lm = m.x * m.x + m.y * m.y + m.z * m.z := hlen
    have hd2 : (m.normalize lm).length2 = 1 := by
      simp only [btVector3.normalize, btVector3.div, btVector3.length2,
        btVector3.generic_dot_def, btVector3.generic_scale_x, btVector3.generic_scale_y,
        btVector3.generic_scale_z]
      field_simp
      linarith
    have hd2' : (m.normalize lm).x * (m.normalize lm).x +
        (m.normalize lm).y * (m.normalize lm).y +
        (m.normalize lm).z * (m.normalize lm).z = 1 := hd2
    have hr2 : (computeReflectionDirection (m.normalize lm) n).length2 = 1 := by
      simp only [computeReflectionDirection, btVector3.length2, btVector3.generic_dot_def,
        btVector3.generic_sub_x, btVector3.generic_sub_y, btVector3.generic_sub_z,
        btVector3.generic_lscale_x, btVector3.generic_lscale_y, btVector3.generic_lscale_z]
      linear_combination hd2' + 4 * ((m.normalize lm).x * n.x + (m.normalize lm).y * n.y
        + (m.normalize lm).z * n.z) ^ 2 * hn'
    have hrn : (computeReflectionDirection (m.normalize lm) n).normalize lm
        = computeReflectionDirection (m.normalize lm) n := by
      simp only [btVector3.normalize, btVector3.length] at hr2 ⊢
      rw [hr2, hone]
      ext <;> simp [btVector3.div]
    rw [hrn]
    have hx : (m.normalize lm).x * m.length lm = m.x := by
      simp only [btVector3.normalize, btVector3.div, btVector3.generic_scale_x]; field_simp
    have hy : (m.normalize lm).y * m.length lm = m.y := by
      simp only [btVector3.normalize, btVector3.div, btVector3.generic_scale_y]; field_simp
    have hz : (m.normalize lm).z * m.length lm = m.z := by
      simp only [btVector3.normalize, btVector3.div, btVector3.generic_scale_z]; field_simp
    generalize m.normalize lm = d at hx hy hz hd2 hd2' hr2 hrn
    generalize m.length lm = l at hx hy hz h0 hlen hlen'
    ext
    · simp only [perpindicularComponent, parallelComponent, computeReflectionDirection,
        btVector3.generic_dot_def, btVector3.generic_sub_x, btVector3.generic_sub_y,
        btVector3.generic_sub_z, btVector3.generic_scale_x, btVector3.generic_scale_y,
        btVector3.generic_scale_z, btVector3.generic_lscale_x, btVector3.generic_lscale_y,
        btVector3.generic_lscale_z]
      rw [← hx, ← hy, ← hz]
      linear_combination
        ((2 : K) * n.x * normalMag * l * (d.x * n.x + d.y * n.y + d.z * n.z)) * hn'
    · simp only [perpindicularComponent, parallelComponent, computeReflectionDirection,
        btVector3.generic_dot_def, btVector3.generic_sub_x, btVector3.generic_sub_y,
        btVector3.generic_sub_z, btVector3.generic_scale_x, btVector3.generic_scale_y,
        btVector3.generic_scale_z, btVector3.generic_lscale_x, btVector3.generic_lscale_y,
        btVector3.generic_lscale_z]
      rw [← hx, ← hy, ← hz]
      linear_combination
        ((2 : K) * n.y * normalMag * l * (d.x * n.x + d.y * n.y + d.z * n.z)) * hn'
    · simp only [perpindicularComponent, parallelComponent, computeReflectionDirection,
        btVector3.generic_dot_def, btVector3.generic_sub_x, btVector3.generic_sub_y,
        btVector3.generic_sub_z, btVector3.generic_scale_x, btVector3.generic_scale_y,
        btVector3.generic_scale_z, btVector3.generic_lscale_x, btVector3.generic_lscale_y,
        btVector3.generic_lscale_z]
      rw [← hx, ← hy, ← hz]
      linear_combination
        ((2 : K) * n.z * normalMag * l * (d.x * n.x + d.y * n.y + d.z * n.z)) * hn'

/-- Over a field, the retargeting does not write `m_currentPosition`. -/
theorem generic_updateTarget_currentPosition (lm : LinearMath K)
    (self : btKinematicCharacterController K) (n : btVector3 K) (tangentMag normalMag : K) :
    (updateTargetPositionBasedOnCollision lm self n tangentMag normalMag).m_currentPosition =
      self.m_currentPosition := by
  unfold updateTargetPositionBasedOnCollision
  simp only []
  split_ifs <;> rfl

/-- Over a field, with a unit hit normal and a square root that is exact at the
squared length of the movement and at `1`, the offset that the retargeting
leaves is `normalMag` times the projection of the movement onto the contact
plane. -/
theorem generic_updateTarget_project (lm : LinearMath K)
    (self : btKinematicCharacterController K) (n : btVector3 K) (tangentMag normalMag : K)
    (hn : n.dot n = 1)
    (hlen : (self.m_targetPosition - self.m_currentPosition).length lm *
        (self.m_targetPosition - self.m_currentPosition).length lm =
        (self.m_targetPosition - self.m_currentPosition).length2)
    (hone : lm.btSqrt 1 = 1)
    (hbig : (self.m_targetPosition - self.m_currentPosition).length lm > lm.SIMD_EPSILON) :
    (updateTargetPositionBasedOnCollision lm self n tangentMag normalMag).m_targetPosition -
        (updateTargetPositionBasedOnCollision lm self n tangentMag normalMag).m_currentPosition =
      normalMag * ((self.m_targetPosition - self.m_currentPosition) -
        ((self.m_targetPosition - self.m_currentPosition).dot n) * n) := by
  have hv := generic_retarget_vec lm (self.m_targetPosition - self.m_currentPosition) n
    normalMag hn hlen hone
  rw [generic_updateTarget_currentPosition]
  unfold updateTargetPositionBasedOnCollision
  simp only [hbig, if_true]
  by_cases hnm : normalMag = 0
  · subst hnm
    ext <;> simp
  · simp only [ne_eq, hnm, not_false_eq_true, if_true, hv]
    ext <;> simp [perpindicularComponent, parallelComponent, btVector3.generic_dot_def]

/-- C19: retargeting is the projection onto the contact plane.  Over the real
numbers with the real square root, whatever `SIMD_EPSILON` is: for every unit
`hitNormal` `n` and every movement `m = targetPosition - currentPosition` with
`|m| > SIMD_EPSILON`, after
`updateTargetPositionBasedOnCollision(n, tangentMag, normalMag)` the offset
`targetPosition - currentPosition` is `normalMag × (m - (m·n) n)`; it is
orthogonal to `n`; and for `normalMag = 1` its length does not exceed `|m|`. -/
theorem updateTarget_projection (SIMD_EPSILON : ℝ) (self : btKinematicCharacterController ℝ)
    (n : btVector3 ℝ) (tangentMag normalMag : ℝ)
    (hn : n.length ⟨Real.sqrt, SIMD_EPSILON⟩ = 1)
    (hbig : (self.m_targetPosition - self.m_currentPosition).length ⟨Real.sqrt, SIMD_EPSILON⟩ >
      SIMD_EPSILON) :
    (updateTargetPositionBasedOnCollision ⟨Real.sqrt, SIMD_EPSILON⟩ self n tangentMag
        normalMag).m_targetPosition -
      (updateTargetPositionBasedOnCollision ⟨Real.sqrt, SIMD_EPSILON⟩ self n tangentMag
        normalMag).m_currentPosition =
      normalMag * ((self.m_targetPosition - self.m_currentPosition) -
        ((self.m_targetPosition - self.m_currentPosition).dot n) * n) ∧
    ((updateTargetPositionBasedOnCollision ⟨Real.sqrt, SIMD_EPSILON⟩ self n tangentMag
        normalMag).m_targetPosition -
      (updateTargetPositionBasedOnCollision ⟨Real.sqrt, SIMD_EPSILON⟩ self n tangentMag
        normalMag).m_currentPosition).dot n = 0 ∧
    (normalMag = 1 →
      ((updateTargetPositionBasedOnCollision ⟨Real.sqrt, SIMD_EPSILON⟩ self n tangentMag
          normalMag).m_targetPosition -
        (updateTargetPositionBasedOnCollision ⟨Real.sqrt, SIMD_EPSILON⟩ self n tangentMag
          normalMag).m_currentPosition).length ⟨Real.sqrt, SIMD_EPSILON⟩ ≤
        (self.m_targetPosition - self.m_currentPosition).length ⟨Real.sqrt, SIMD_EPSILON⟩) := by
  have hn1 : n.dot n = 1 := by
    have h : Real.sqrt (n.dot n) = 1 := hn
    exact (Real.sqrt_eq_one).mp h
  have hn' : n.x * n.x + n.y * n.y + n.z * n.z = 1 := hn1
  have hoff := generic_updateTarget_project ⟨Real.sqrt, SIMD_EPSILON⟩ self n tangentMag
    normalMag hn1
    (Real.mul_self_sqrt (btVector3.generic_length2_nonneg _)) Real.sqrt_one hbig
  rw [hoff]
  generalize self.m_targetPosition - self.m_currentPosition = m
  refine ⟨rfl, ?_, ?_⟩
  · simp only [btVector3.generic_dot_def, btVector3.generic_sub_x, btVector3.generic_sub_y,
      btVector3.generic_sub_z, btVector3.generic_lscale_x, btVector3.generic_lscale_y,
      btVector3.generic_lscale_z]
    linear_combination (-(normalMag * (m.x * n.x + m.y * n.y + m.z * n.z))) * hn'
  · intro h1
    subst h1
    apply Real.sqrt_le_sqrt
    simp only [btVector3.length2, btVector3.generic_dot_def, btVector3.generic_sub_x,
      btVector3.generic_sub_y, btVector3.generic_sub_z, btVector3.generic_lscale_x,
      btVector3.generic_lscale_y, btVector3.generic_lscale_z]
    have hsq : 0 ≤ (m.x * n.x + m.y * n.y + m.z * n.z) ^ 2 := sq_nonneg _
    nlinarith [hsq, hn']

/-- C19, witness: the movement `(2, 2, 2)`, of length `√12`, retargeted with
the unit normal `(0, 1, 0)` and normal magnitude `1`, with the real square root
and `SIMD_EPSILON = 2⁻²³`: the offset left is `(2, 0, 2)`. -/
theorem updateTarget_projection_witness :
    (updateTargetPositionBasedOnCollision ⟨Real.sqrt, 1 / 8388608⟩
        ⟨⟨0, 0, 0⟩, ⟨2, 2, 2⟩⟩ ⟨0, 1, 0⟩ 0 1).m_targetPosition -
      (updateTargetPositionBasedOnCollision ⟨Real.sqrt, 1 / 8388608⟩
        ⟨⟨0, 0, 0⟩, ⟨2, 2, 2⟩⟩ ⟨0, 1, 0⟩ 0 1).m_currentPosition =
      (⟨2, 0, 2⟩ : btVector3 ℝ) := by
  have hn : (⟨0, 1, 0⟩ : btVector3 ℝ).length ⟨Real.sqrt, 1 / 8388608⟩ = 1 := by
    show Real.sqrt (0 * 0 + 1 * 1 + 0 * 0) = 1
    norm_num
  have hbig : ((⟨2, 2, 2⟩ : btVector3 ℝ) - ⟨0, 0, 0⟩).length ⟨Real.sqrt, 1 / 8388608⟩ >
      1 / 8388608 := by
    show (1 / 8388608 : ℝ) < Real.sqrt ((2 - 0) * (2 - 0) + (2 - 0) * (2 - 0) + (2 - 0) * (2 - 0))
    rw [Real.lt_sqrt (by norm_num)]
    norm_num
  rw [(updateTarget_projection (1 / 8388608) ⟨⟨0, 0, 0⟩, ⟨2, 2, 2⟩⟩ ⟨0, 1, 0⟩ 0 1 hn hbig).1]
  ext <;> norm_num [btVector3.generic_dot_def]

end btKinematicCharacterController

end Generic

namespace btVector3

@[simp] theorem toGeneric_add (a b : btVector3) :
    (a + b).toGeneric = a.toGeneric + b.toGeneric := rfl
@[simp] theorem toGeneric_sub (a b : btVector3) :
    (a - b).toGeneric = a.toGeneric - b.toGeneric := rfl
@[simp] theorem toGeneric_scale (a : btVector3) (s : btScalar) :
    (a * s).toGeneric = a.toGeneric * s := rfl
@[simp] theorem toGeneric_lscale (s : btScalar) (a : btVector3) :
    (s * a).toGeneric = s * a.toGeneric := rfl
@[simp] theorem toGeneric_dot (a b : btVector3) : a.toGeneric.dot b.toGeneric = a.dot b := rfl
@[simp] theorem toGeneric_length (lm : LinearMath) (a : btVector3) :
    a.toGeneric.length lm.toGeneric = a.length lm := rfl
@[simp] theorem toGeneric_normalize (lm : LinearMath) (a : btVector3) :
    a.toGeneric.normalize lm.toGeneric = (a.normalize lm).toGeneric := rfl

end btVector3

namespace btKinematicCharacterController

/-- Over the rationals the two embeddings of
`updateTargetPositionBasedOnCollision` agree: the positions that the function
leaves in a controller are those that the function over a field leaves in the
positions of that controller. -/
theorem updateTarget_toGeneric (lm : LinearMath) (self : btKinematicCharacterController)
    (n : btVector3) (tangentMag normalMag : btScalar) :
    (updateTargetPositionBasedOnCollision lm self n tangentMag normalMag).toGeneric =
      Generic.btKinematicCharacterController.updateTargetPositionBasedOnCollision
        lm.toGeneric self.toGeneric n.toGeneric tangentMag normalMag := by
  have hc : ((self.toGeneric.m_targetPosition - self.toGeneric.m_currentPosition).length
      lm.toGeneric > lm.toGeneric.SIMD_EPSILON) =
      ((self.m_targetPosition - self.m_currentPosition).length lm > lm.SIMD_EPSILON) := rfl
  unfold updateTargetPositionBasedOnCollision
    Generic.btKinematicCharacterController.updateTargetPositionBasedOnCollision
  simp only [hc]
  by_cases h : (self.m_targetPosition - self.m_currentPosition).length lm > lm.SIMD_EPSILON
  · rw [if_pos h, if_pos h]
    by_cases hnm : normalMag = 0
    · simp only [hnm, ne_eq, not_true_eq_false, if_false]
      rfl
    · simp only [ne_eq, hnm, not_false_eq_true, if_true]
      rfl
  · rw [if_neg h, if_neg h]

end btKinematicCharacterController

end Bullet
